import Mathlib

/-!
# Chain of Responsibility log router

A shallow embedding of `Цепочка ответственности.cpp`.

* Handler objects live in a heap (a list of objects, an address is an index);
  `nextHandler_` is a nullable address, as the raw pointer of the source is.
* `std::cout`, `std::cerr` and the file system are explicit state (`World`).
  Opening a file and writing to it can each fail; the source tests the open
  and never the write.
* An exception is the value of a `std::runtime_error`: its `what()` string.
* The virtual call `nextHandler_->handle(...)` is a recursion that the source
  does not bound (the wiring may be cyclic), so `handle` takes fuel; a run
  that uses it up is reported as `Outcome.outOfFuel`.
* Every run records the addresses of the handlers whose `handle` was entered
  (`Run.visited`); this is a ghost trace, the source has no such data.
* `handle` reads the objects; `handleOn` is the same code with the objects as
  state, and the two are proved to agree.
-/

namespace ChainOfResponsibility

/-! ## Data model -/

/-- The `enum class Type` of the source (`Type` is a keyword here). -/
inductive MsgType
  | Warning
  | Error
  | FatalError
  | Unknown
  deriving DecidableEq, Repr

/-- The class `LogMessage`: a type tag and a text; both accessors are plain reads. -/
structure LogMessage where
  type : MsgType
  message : String
  deriving DecidableEq, Repr

/-- The value of a thrown `std::runtime_error`: the string `what()` returns. -/
structure runtime_error where
  what : String
  deriving DecidableEq, Repr

/-- The observable environment: the two standard streams, the content of every
file (`none`: the file does not exist), whether opening a path for append
succeeds, and whether what is written to a stream opened on a path reaches
the file (a device that is full accepts the open and fails the write). -/
structure World where
  cout : String
  cerr : String
  files : String → Option String
  openable : String → Bool
  writable : String → Bool

/-- The dynamic class of a handler object, with the fields of that class. -/
inductive HandlerKind
  | LogHandler
  | FatalErrorHandler
  | ErrorHandler (logFilePath_ : String)
  | WarningHandler
  | UnknownHandler
  deriving DecidableEq, Repr

/-- A handler object: its dynamic class and the field `nextHandler_`
(`none` is `nullptr`). -/
structure Handler where
  kind : HandlerKind
  nextHandler_ : Option Nat
  deriving DecidableEq, Repr

/-- The objects of the program; the address of an object is its index. -/
abbrev Heap := List Handler

/-- How a call of `handle` ends. -/
inductive Outcome
  | returned
  | threw (e : runtime_error)
  | outOfFuel
  | invalidPointer
  deriving DecidableEq, Repr

/-- The result of a call of `handle`: how it ended, the environment it left and
the addresses of the handlers entered, in order. -/
structure Run where
  outcome : Outcome
  world : World
  visited : List Nat

/-! ## The exceptions of the source -/

/-- The exception of `LogHandler::handle` at the end of the chain. -/
def unhandledError : runtime_error := ⟨"Unhandled log message"⟩

/-- The exception of `ErrorHandler::handle` when the file is not open. -/
def sinkError : runtime_error := ⟨"Unable to open log file"⟩

/-- The exception of `FatalErrorHandler::handle`. -/
def fatalError (message : String) : runtime_error := ⟨"Fatal error: " ++ message⟩

/-- The exception of `UnknownHandler::handle`. -/
def unknownError (message : String) : runtime_error := ⟨"Unknown log message: " ++ message⟩

/-! ## Streams and files -/

/-- The statement `std::cout << a << b << std::endl`. -/
def World.writeCout (w : World) (a b : String) : World :=
  { w with cout := w.cout ++ a ++ b ++ "\n" }

/-- The statement `std::cerr << a << b << std::endl`. -/
def World.writeCerr (w : World) (a b : String) : World :=
  { w with cerr := w.cerr ++ a ++ b ++ "\n" }

/-- The statements `std::ofstream outFile(path, std::ios::app);` (found open)
and `outFile << a << b << std::endl;`, the state of the stream not being
tested after the write, as nowhere in the source it is. The open creates a
file that did not exist. When the write succeeds the text goes after the old
content; when it fails the content stays as it was (a write that fails half
way through the line is not modelled). -/
def World.appendFile (w : World) (path a b : String) : World :=
  { w with files := fun q =>
      if q = path then
        some (if w.writable path then (w.files path).getD "" ++ a ++ b ++ "\n"
          else (w.files path).getD "")
      else w.files q }

/-! ## The handlers -/

/-- The method `LogHandler::setNext` on the object at address `self`. -/
def setNext (heap : Heap) (self : Nat) (handler : Option Nat) : Heap :=
  heap.modify (fun h => { h with nextHandler_ := handler }) self

/-- The method `LogHandler::handle`; `virt` is the virtual call `p->handle(...)`. -/
def LogHandler.handle (virt : Nat → LogMessage → World → Run) (nextHandler_ : Option Nat)
    (logMessage : LogMessage) (w : World) : Run :=
  match nextHandler_ with
  | some p => virt p logMessage w
  | none => ⟨.threw unhandledError, w, []⟩

/-- The method `FatalErrorHandler::handle`. -/
def FatalErrorHandler.handle (virt : Nat → LogMessage → World → Run) (nextHandler_ : Option Nat)
    (logMessage : LogMessage) (w : World) : Run :=
  if logMessage.type = MsgType.FatalError then
    ⟨.threw (fatalError logMessage.message), w, []⟩
  else
    LogHandler.handle virt nextHandler_ logMessage w

/-- The method `ErrorHandler::handle`. -/
def ErrorHandler.handle (virt : Nat → LogMessage → World → Run) (nextHandler_ : Option Nat)
    (logFilePath_ : String) (logMessage : LogMessage) (w : World) : Run :=
  if logMessage.type = MsgType.Error then
    if !w.openable logFilePath_ then
      ⟨.threw sinkError, w, []⟩
    else
      ⟨.returned, w.appendFile logFilePath_ "Error: " logMessage.message, []⟩
  else
    LogHandler.handle virt nextHandler_ logMessage w

/-- The method `WarningHandler::handle`. -/
def WarningHandler.handle (virt : Nat → LogMessage → World → Run) (nextHandler_ : Option Nat)
    (logMessage : LogMessage) (w : World) : Run :=
  if logMessage.type = MsgType.Warning then
    ⟨.returned, w.writeCout "Warning: " logMessage.message, []⟩
  else
    LogHandler.handle virt nextHandler_ logMessage w

/-- The method `UnknownHandler::handle`. -/
def UnknownHandler.handle (virt : Nat → LogMessage → World → Run) (nextHandler_ : Option Nat)
    (logMessage : LogMessage) (w : World) : Run :=
  if logMessage.type = MsgType.Unknown then
    ⟨.threw (unknownError logMessage.message), w, []⟩
  else
    LogHandler.handle virt nextHandler_ logMessage w

/-- Records in the ghost trace that the handler at `p` was entered. -/
def Run.enter (p : Nat) (r : Run) : Run :=
  { r with visited := p :: r.visited }

/-- The virtual call `p->handle(logMessage)`: the override of the dynamic class
of the object at `p` runs. A `p` that addresses no object is
`Outcome.invalidPointer`. -/
def handle (heap : Heap) : Nat → Nat → LogMessage → World → Run
  | 0, _, _, w => ⟨.outOfFuel, w, []⟩
  | fuel + 1, p, logMessage, w =>
    match heap[p]? with
    | none => ⟨.invalidPointer, w, []⟩
    | some h =>
      Run.enter p <|
        match h.kind with
        | .LogHandler => LogHandler.handle (handle heap fuel) h.nextHandler_ logMessage w
        | .FatalErrorHandler =>
          FatalErrorHandler.handle (handle heap fuel) h.nextHandler_ logMessage w
        | .ErrorHandler path =>
          ErrorHandler.handle (handle heap fuel) h.nextHandler_ path logMessage w
        | .WarningHandler =>
          WarningHandler.handle (handle heap fuel) h.nextHandler_ logMessage w
        | .UnknownHandler =>
          UnknownHandler.handle (handle heap fuel) h.nextHandler_ logMessage w

/-! ## Chains -/

/-- The type a handler class compares `logMessage.type()` with (`none` for the
base class, whose `handle` has no such test). -/
def claimed : HandlerKind → Option MsgType
  | .LogHandler => none
  | .FatalErrorHandler => some .FatalError
  | .ErrorHandler _ => some .Error
  | .WarningHandler => some .Warning
  | .UnknownHandler => some .Unknown

/-- The heap holds the chain `c` (addresses with their classes, in order): each
object is followed through `nextHandler_` by the next one and the last one has
`nullptr`. The entry handler is the first address of `c`. -/
def isChain (heap : Heap) : List (Nat × HandlerKind) → Bool
  | [] => false
  | [(a, k)] => heap[a]? == some ⟨k, none⟩
  | (a, k) :: (b, k2) :: rest =>
    heap[a]? == some ⟨k, some b⟩ && isChain heap ((b, k2) :: rest)

/-- The address of the entry handler of a chain. -/
def entry (c : List (Nat × HandlerKind)) : Nat :=
  (c.map Prod.fst).headD 0

/-- A handler object of class `k` on its own, without a successor. -/
def alone (k : HandlerKind) : Heap := [⟨k, none⟩]

/-! ## The driver -/

/-- Address of the local `fatalHandler` of `main`. -/
def fatalHandler : Nat := 0

/-- Address of the local `errorHandler` of `main`. -/
def errorHandler : Nat := 1

/-- Address of the local `warningHandler` of `main`. -/
def warningHandler : Nat := 2

/-- Address of the local `unknownHandler` of `main`. -/
def unknownHandler : Nat := 3

/-- The four handler objects `main` defines, in the order of their definitions;
`filePath` is the argument of the `ErrorHandler` constructor. -/
def mainObjects (filePath : String) : Heap :=
  [⟨.FatalErrorHandler, none⟩, ⟨.ErrorHandler filePath, none⟩,
   ⟨.WarningHandler, none⟩, ⟨.UnknownHandler, none⟩]

/-- The heap after the three `setNext` calls of `main`. -/
def mainWiring (filePath : String) : Heap :=
  setNext
    (setNext
      (setNext (mainObjects filePath) warningHandler (some errorHandler))
      errorHandler (some fatalHandler))
    fatalHandler (some unknownHandler)

/-- The local `warning` of `main`. -/
def warning : LogMessage := ⟨.Warning, "Low disk space."⟩

/-- The local `error` of `main`. -/
def error : LogMessage := ⟨.Error, "Failed to open file."⟩

/-- The local `fatal` of `main`. -/
def fatal : LogMessage := ⟨.FatalError, "Memory corruption detected."⟩

/-- The local `unknown` of `main`. -/
def unknown : LogMessage := ⟨.Unknown, "Unrecognized format."⟩

/-- The state of the driver: the environment and, as a ghost trace, the
messages passed so far to `warningHandler.handle`. -/
structure Driver where
  world : World
  submitted : List LogMessage

/-- The body of a `try` block made of the statements
`warningHandler.handle(m);` for the messages `ms`: they run in order until one
does not return. -/
def tryBody (heap : Heap) (fuel : Nat) : List LogMessage → Driver → Outcome × Driver
  | [], d => (.returned, d)
  | m :: ms, d =>
    let r := handle heap fuel warningHandler m d.world
    let d1 : Driver := ⟨r.world, d.submitted ++ [m]⟩
    match r.outcome with
    | .returned => tryBody heap fuel ms d1
    | o => (o, d1)

/-- The handler `catch (const std::exception& e)` of `main`, applied to the way
the `try` body ended. -/
def catchException (r : Outcome × Driver) : Outcome × Driver :=
  match r.1 with
  | .threw e => (.returned, ⟨r.2.world.writeCerr "Exception caught: " e.what, r.2.submitted⟩)
  | o => (o, r.2)

/-- The result of `main`: the exit code (`none` when `main` does not return),
the environment and the messages submitted. -/
structure MainRun where
  exit : Option Int
  world : World
  submitted : List LogMessage

/-- The function `main`. -/
def main (fuel : Nat) (w : World) : MainRun :=
  let heap := mainWiring "log.txt"
  let r1 := catchException (tryBody heap fuel [warning, error, fatal] ⟨w, []⟩)
  match r1.1 with
  | .returned =>
    let r2 := catchException (tryBody heap fuel [unknown] r1.2)
    match r2.1 with
    | .returned => ⟨some 0, r2.2.world, r2.2.submitted⟩
    | _ => ⟨none, r2.2.world, r2.2.submitted⟩
  | _ => ⟨none, r1.2.world, r1.2.submitted⟩

/-! ## Concrete environments -/

/-- Nothing written yet, no file exists, every path can be opened for append
and written. -/
def freshWorld : World := ⟨"", "", fun _ => none, fun _ => true, fun _ => true⟩

/-- As `freshWorld`, but no path can be opened for append. -/
def lockedWorld : World := ⟨"", "", fun _ => none, fun _ => false, fun _ => true⟩

/-- The file `log.txt` exists with one line in it and can be opened and written. -/
def loggedWorld : World :=
  ⟨"", "", fun q => if q = "log.txt" then some "boot\n" else none, fun _ => true,
    fun _ => true⟩

/-- As `loggedWorld`, but the device is full: every open succeeds and every
write fails. -/
def fullDiskWorld : World :=
  ⟨"", "", fun q => if q = "log.txt" then some "boot\n" else none, fun _ => true,
    fun _ => false⟩

/-- The chain `main` wires, with the addresses of its four objects. -/
def mainChain (filePath : String) : List (Nat × HandlerKind) :=
  [(warningHandler, .WarningHandler), (errorHandler, .ErrorHandler filePath),
   (fatalHandler, .FatalErrorHandler), (unknownHandler, .UnknownHandler)]

/-- A heap with two `ErrorHandler` objects, the first one wired to the second. -/
def twoErrorHandlers : Heap :=
  setNext [⟨.ErrorHandler "a.txt", none⟩, ⟨.ErrorHandler "b.txt", none⟩] 0 (some 1)

/-- A heap with the first three handlers of `main` wired as there and nothing
after the `FatalErrorHandler`. -/
def threeHandlers : Heap :=
  setNext
    (setNext [⟨.WarningHandler, none⟩, ⟨.ErrorHandler "log.txt", none⟩,
      ⟨.FatalErrorHandler, none⟩] 0 (some 1))
    1 (some 2)

/-! ## Sequences of calls -/

/-- The calls `a0.setNext(&a1); a1.setNext(&a2); ...` that link the objects at
the addresses given, each to the following one, as the three calls of `main`
do; the last object keeps the successor it has. -/
def wire (heap : Heap) : List Nat → Heap
  | a :: b :: rest => wire (setNext heap a (some b)) (b :: rest)
  | _ => heap

/-- The dynamic class of the object at address `a` (the base class when `a`
addresses no object). -/
def kindAt (heap : Heap) (a : Nat) : HandlerKind :=
  match heap[a]? with
  | some h => h.kind
  | none => .LogHandler

/-! ### The handlers with the objects as state

The methods `handle` are not `const`: each may assign the fields of any
handler it reaches. Below they are translated once more with the objects
passed in and handed back, statement by statement; `virt` is again the
virtual call, which now also gives the objects it leaves. -/

/-- The method `LogHandler::handle`, with the objects as state. -/
def LogHandler.handleOn (virt : Heap → Nat → LogMessage → World → Run × Heap) (heap : Heap)
    (nextHandler_ : Option Nat) (logMessage : LogMessage) (w : World) : Run × Heap :=
  match nextHandler_ with
  | some p => virt heap p logMessage w
  | none => (⟨.threw unhandledError, w, []⟩, heap)

/-- The method `FatalErrorHandler::handle`, with the objects as state. -/
def FatalErrorHandler.handleOn (virt : Heap → Nat → LogMessage → World → Run × Heap)
    (heap : Heap) (nextHandler_ : Option Nat) (logMessage : LogMessage) (w : World) :
    Run × Heap :=
  if logMessage.type = MsgType.FatalError then
    (⟨.threw (fatalError logMessage.message), w, []⟩, heap)
  else
    LogHandler.handleOn virt heap nextHandler_ logMessage w

/-- The method `ErrorHandler::handle`, with the objects as state. -/
def ErrorHandler.handleOn (virt : Heap → Nat → LogMessage → World → Run × Heap)
    (heap : Heap) (nextHandler_ : Option Nat) (logFilePath_ : String) (logMessage : LogMessage)
    (w : World) : Run × Heap :=
  if logMessage.type = MsgType.Error then
    if !w.openable logFilePath_ then
      (⟨.threw sinkError, w, []⟩, heap)
    else
      (⟨.returned, w.appendFile logFilePath_ "Error: " logMessage.message, []⟩, heap)
  else
    LogHandler.handleOn virt heap nextHandler_ logMessage w

/-- The method `WarningHandler::handle`, with the objects as state. -/
def WarningHandler.handleOn (virt : Heap → Nat → LogMessage → World → Run × Heap)
    (heap : Heap) (nextHandler_ : Option Nat) (logMessage : LogMessage) (w : World) :
    Run × Heap :=
  if logMessage.type = MsgType.Warning then
    (⟨.returned, w.writeCout "Warning: " logMessage.message, []⟩, heap)
  else
    LogHandler.handleOn virt heap nextHandler_ logMessage w

/-- The method `UnknownHandler::handle`, with the objects as state. -/
def UnknownHandler.handleOn (virt : Heap → Nat → LogMessage → World → Run × Heap)
    (heap : Heap) (nextHandler_ : Option Nat) (logMessage : LogMessage) (w : World) :
    Run × Heap :=
  if logMessage.type = MsgType.Unknown then
    (⟨.threw (unknownError logMessage.message), w, []⟩, heap)
  else
    LogHandler.handleOn virt heap nextHandler_ logMessage w

/-- The virtual call `p->handle(logMessage)` with the objects as state: the
run and the objects after the call. -/
def handleOn : Nat → Heap → Nat → LogMessage → World → Run × Heap
  | 0, heap, _, _, w => (⟨.outOfFuel, w, []⟩, heap)
  | fuel + 1, heap, p, logMessage, w =>
    match heap[p]? with
    | none => (⟨.invalidPointer, w, []⟩, heap)
    | some h =>
      let r : Run × Heap :=
        match h.kind with
        | .LogHandler => LogHandler.handleOn (handleOn fuel) heap h.nextHandler_ logMessage w
        | .FatalErrorHandler =>
          FatalErrorHandler.handleOn (handleOn fuel) heap h.nextHandler_ logMessage w
        | .ErrorHandler path =>
          ErrorHandler.handleOn (handleOn fuel) heap h.nextHandler_ path logMessage w
        | .WarningHandler =>
          WarningHandler.handleOn (handleOn fuel) heap h.nextHandler_ logMessage w
        | .UnknownHandler =>
          UnknownHandler.handleOn (handleOn fuel) heap h.nextHandler_ logMessage w
      (Run.enter p r.1, r.2)

/-- A statement of a driver: a call of one of the two public methods of
`LogHandler` on the object at `self`. -/
inductive Call
  | setNext (self : Nat) (handler : Option Nat)
  | handle (self : Nat) (logMessage : LogMessage)

/-- The objects and the environment of a running program. -/
structure Machine where
  heap : Heap
  world : World

/-- One statement of a driver: the way it ends, and the objects and the
environment it leaves. -/
def Call.run (fuel : Nat) : Call → Machine → Outcome × Machine
  | .setNext self handler, s => (.returned, ⟨ChainOfResponsibility.setNext s.heap self handler, s.world⟩)
  | .handle self logMessage, s =>
    let r := handleOn fuel s.heap self logMessage s.world
    (r.1.outcome, ⟨r.2, r.1.world⟩)

/-- One `WarningHandler` after the call `h.setNext(&h)`. -/
def selfLoop : Heap := setNext [⟨.WarningHandler, none⟩] 0 (some 0)

/-- The four handler classes of `main`, wired in the opposite order:
Unknown, FatalError, Error, Warning. -/
def reversedWiring : Heap :=
  wire [⟨.UnknownHandler, none⟩, ⟨.FatalErrorHandler, none⟩, ⟨.ErrorHandler "log.txt", none⟩,
    ⟨.WarningHandler, none⟩] [0, 1, 2, 3]


/-- The class of the first handler, in the order of the list, that claims the
type `t` (`none` when no handler of the list does). -/
def firstClaimant (ks : List HandlerKind) (t : MsgType) : Option HandlerKind :=
  ks.find? (fun k => claimed k == some t)


end ChainOfResponsibility

/-!
# Observer

A shallow embedding of `Наблюдатель.cpp`. Observer objects live in a heap of
their own (an address is an index); an `Observer*` is a nullable address. The
environment is the `World` of the first part. Every broadcast records, as a
ghost trace, the virtual calls it makes.
-/

namespace ObserverPattern

/-- The dynamic class of an observer object, with the field of that class. -/
inductive ObserverKind
  | Observer
  | WarningObserver
  | ErrorObserver (filePath : String)
  | FatalErrorObserver (filePath : String)
  deriving DecidableEq, Repr

/-- The observer objects of the program; the address of an object is its index. -/
abbrev ObserverHeap := List ObserverKind

/-- A value of type `Observer*` (`none` is `nullptr`). -/
abbrev ObserverPtr := Option Nat

/-- The three virtual methods of `Observer`. -/
inductive Method
  | onWarning
  | onError
  | onFatalError
  deriving DecidableEq, Repr

/-- One virtual call `self->method(message)` (ghost data). -/
structure Invocation where
  self : Nat
  method : Method
  message : String
  deriving DecidableEq, Repr

/-- The environment together with the ghost trace of the calls made so far. -/
structure State where
  world : ChainOfResponsibility.World
  calls : List Invocation

/-- The method `Observer::onWarning`, with an empty body. -/
def Observer.onWarning (_message : String) (w : ChainOfResponsibility.World) :
    ChainOfResponsibility.World := w

/-- The method `Observer::onError`, with an empty body. -/
def Observer.onError (_message : String) (w : ChainOfResponsibility.World) :
    ChainOfResponsibility.World := w

/-- The method `Observer::onFatalError`, with an empty body. -/
def Observer.onFatalError (_message : String) (w : ChainOfResponsibility.World) :
    ChainOfResponsibility.World := w

/-- The method `WarningObserver::onWarning`. -/
def WarningObserver.onWarning (message : String) (w : ChainOfResponsibility.World) :
    ChainOfResponsibility.World :=
  w.writeCout "Warning: " message

/-- The method `ErrorObserver::onError`: nothing happens when the file is not open. -/
def ErrorObserver.onError (filePath message : String) (w : ChainOfResponsibility.World) :
    ChainOfResponsibility.World :=
  if w.openable filePath then w.appendFile filePath "Error: " message else w

/-- The method `FatalErrorObserver::onFatalError`. -/
def FatalErrorObserver.onFatalError (filePath message : String)
    (w : ChainOfResponsibility.World) : ChainOfResponsibility.World :=
  let w1 := w.writeCout "Fatal Error: " message
  if w1.openable filePath then w1.appendFile filePath "Fatal Error: " message else w1

/-- The virtual call `observer->method(message)` on an object of dynamic class
`k`: the override of `k` when it has one, the method of the base class
otherwise. -/
def virtualCall (k : ObserverKind) (method : Method) (message : String)
    (w : ChainOfResponsibility.World) : ChainOfResponsibility.World :=
  match method, k with
  | .onWarning, .WarningObserver => WarningObserver.onWarning message w
  | .onWarning, _ => Observer.onWarning message w
  | .onError, .ErrorObserver filePath => ErrorObserver.onError filePath message w
  | .onError, _ => Observer.onError message w
  | .onFatalError, .FatalErrorObserver filePath =>
    FatalErrorObserver.onFatalError filePath message w
  | .onFatalError, _ => Observer.onFatalError message w

/-- The algorithm `std::find` over a whole sequence: the position of the first
element equal to `value`, the length of the sequence when there is none. -/
def stdFind (value : ObserverPtr) : List ObserverPtr → Nat
  | [] => 0
  | x :: rest => if x == value then 0 else stdFind value rest + 1

/-- The loop of the algorithm `std::remove`,
`for (i = first; ++i != last;) if (!(*i == value)) *first++ = *i;`,
on the buffer `buf`; `n` bounds the iterations left. It gives the buffer and
the final `first`. -/
def removeLoop (value : ObserverPtr) : Nat → List ObserverPtr → Nat → Nat →
    List ObserverPtr × Nat
  | 0, buf, first, _ => (buf, first)
  | n + 1, buf, first, i =>
    match buf[i + 1]? with
    | none => (buf, first)
    | some x =>
      if !(x == value) then removeLoop value n (buf.set first x) (first + 1) (i + 1)
      else removeLoop value n buf first (i + 1)

/-- The algorithm `std::remove(begin, end, value)` of the standard library:
`first = std::find(begin, end, value)`, then, unless `first` is `end`, the
loop above. It gives the buffer after the moves and the position returned. -/
def stdRemove (value : ObserverPtr) (buf : List ObserverPtr) : List ObserverPtr × Nat :=
  let first := stdFind value buf
  if first != buf.length then removeLoop value buf.length buf first first else (buf, first)

/-- The call `v.erase(first, last)` of `std::vector` on positions. -/
def eraseRange (buf : List ObserverPtr) (first last : Nat) : List ObserverPtr :=
  buf.take first ++ buf.drop last

/-- The class `Observable`: its only field is the vector `observers`. -/
structure Observable where
  observers : List ObserverPtr
  deriving DecidableEq, Repr

/-- The method `Observable::addObserver`. -/
def Observable.addObserver (self : Observable) (observer : ObserverPtr) : Observable :=
  ⟨self.observers ++ [observer]⟩

/-- The method `Observable::removeObserver`: the positions from the one
`std::remove` returns up to the end are erased. -/
def Observable.removeObserver (self : Observable) (observer : ObserverPtr) : Observable :=
  let r := stdRemove observer self.observers
  ⟨eraseRange r.1 r.2 r.1.length⟩

/-- The loop `for (const auto& observer : observers)` with the body
`if (observer) observer->method(message);`. A pointer that is not null and
addresses no object ends the run with `none`. -/
def forEachObserver (heap : ObserverHeap) (method : Method) (message : String) :
    List ObserverPtr → State → Option State
  | [], s => some s
  | none :: rest, s => forEachObserver heap method message rest s
  | some p :: rest, s =>
    match heap[p]? with
    | none => none
    | some k =>
      forEachObserver heap method message rest
        ⟨virtualCall k method message s.world, s.calls ++ [⟨p, method, message⟩]⟩

/-- The method `Observable::warning`. -/
def Observable.warning (self : Observable) (heap : ObserverHeap) (message : String)
    (s : State) : Option State :=
  forEachObserver heap .onWarning message self.observers s

/-- The method `Observable::error`. -/
def Observable.error (self : Observable) (heap : ObserverHeap) (message : String)
    (s : State) : Option State :=
  forEachObserver heap .onError message self.observers s

/-- The method `Observable::fatalError`. -/
def Observable.fatalError (self : Observable) (heap : ObserverHeap) (message : String)
    (s : State) : Option State :=
  forEachObserver heap .onFatalError message self.observers s

/-- The three observer objects `main` defines, in the order of their definitions. -/
def mainObservers : ObserverHeap :=
  [.WarningObserver, .ErrorObserver "error_log.txt", .FatalErrorObserver "fatal_error_log.txt"]

/-- The object `logger` of `main` after its three `addObserver` calls. -/
def logger : Observable :=
  (((Observable.mk []).addObserver (some 0)).addObserver (some 1)).addObserver (some 2)

end ObserverPattern

namespace ChainOfResponsibility


/-! ## Single steps of `handle` -/

theorem handle_succ (heap : Heap) (fuel a : Nat) (h : Handler)
    (m : LogMessage) (w : World) (hget : heap[a]? = some h) :
    handle heap (fuel + 1) a m w = Run.enter a
        (match h.kind with
        | .LogHandler => LogHandler.handle (handle heap fuel) h.nextHandler_ m w
        | .FatalErrorHandler =>
          FatalErrorHandler.handle (handle heap fuel) h.nextHandler_ m w
        | .ErrorHandler path =>
          ErrorHandler.handle (handle heap fuel) h.nextHandler_ path m w
        | .WarningHandler =>
          WarningHandler.handle (handle heap fuel) h.nextHandler_ m w
        | .UnknownHandler =>
          UnknownHandler.handle (handle heap fuel) h.nextHandler_ m w) := by
  rw [handle, hget]

theorem handle_decline (heap : Heap) (fuel a : Nat) (k : HandlerKind) (nxt : Option Nat)
    (m : LogMessage) (w : World) (hget : heap[a]? = some ⟨k, nxt⟩)
    (hk : claimed k ≠ some m.type) :
    handle heap (fuel + 1) a m w = Run.enter a (LogHandler.handle (handle heap fuel) nxt m w) := by
  rw [handle_succ heap fuel a _ m w hget]
  cases k <;> simp only [claimed, ne_eq, Option.some.injEq] at hk <;>
    simp [FatalErrorHandler.handle, ErrorHandler.handle,
      WarningHandler.handle, UnknownHandler.handle, Ne.symm hk]

theorem handle_claim (heap : Heap) (fuel a : Nat) (k : HandlerKind) (nxt : Option Nat)
    (m : LogMessage) (w : World) (hget : heap[a]? = some ⟨k, nxt⟩)
    (hk : claimed k = some m.type) :
    handle heap (fuel + 1) a m w =
      ⟨(handle (alone k) 1 0 m w).outcome, (handle (alone k) 1 0 m w).world, [a]⟩ := by
  rw [handle_succ heap fuel a _ m w hget, handle_succ (alone k) 0 0 ⟨k, none⟩ m w rfl]
  cases k <;> simp only [claimed, Option.some.injEq, reduceCtorEq] at hk <;>
    simp [FatalErrorHandler.handle, ErrorHandler.handle,
      WarningHandler.handle, UnknownHandler.handle, Run.enter, ← hk]
  split <;> rfl

/-! ## Walking a chain -/

theorem isChain_cons (heap : Heap) (a : Nat) (k : HandlerKind) (rest : List (Nat × HandlerKind)) :
    isChain heap ((a, k) :: rest) = true ↔
      heap[a]? = some ⟨k, (rest.map Prod.fst).head?⟩ ∧ (rest = [] ∨ isChain heap rest = true) := by
  cases rest with
  | nil => simp [isChain]
  | cons x r =>
    obtain ⟨b, k2⟩ := x
    simp [isChain]

theorem head?_fst_of_isChain (heap : Heap) (c : List (Nat × HandlerKind))
    (hc : isChain heap c = true) : (c.map Prod.fst).head? = some (entry c) := by
  cases c with
  | nil => simp [isChain] at hc
  | cons x r => simp [entry]

theorem handle_exhaust (heap : Heap) (m : LogMessage) (w : World) :
    ∀ (c : List (Nat × HandlerKind)) (fuel : Nat), isChain heap c = true →
      (∀ x ∈ c, claimed x.2 ≠ some m.type) →
      handle heap (fuel + c.length) (entry c) m w = ⟨.threw unhandledError, w, c.map Prod.fst⟩ := by
  intro c
  induction c with
  | nil => intro fuel hc; simp [isChain] at hc
  | cons x rest ih =>
    intro fuel hc hno
    obtain ⟨a, k⟩ := x
    obtain ⟨hget, hrest⟩ := (isChain_cons heap a k rest).1 hc
    have hk : claimed k ≠ some m.type := hno (a, k) (List.mem_cons_self _ _)
    have hstep := handle_decline heap (fuel + rest.length) a k _ m w hget hk
    have hlen : fuel + ((a, k) :: rest).length = fuel + rest.length + 1 := by simp; omega
    have hentry : entry ((a, k) :: rest) = a := rfl
    rw [hlen, hentry, hstep]
    rcases hrest with hnil | hch
    · subst hnil
      simp [LogHandler.handle, Run.enter]
    · rw [head?_fst_of_isChain heap rest hch]
      simp only [LogHandler.handle]
      rw [ih fuel hch (fun x hx => hno x (List.mem_cons_of_mem _ hx))]
      simp [Run.enter]

theorem handle_first (heap : Heap) (m : LogMessage) (w : World) (a : Nat) (k : HandlerKind)
    (suf : List (Nat × HandlerKind)) (hk : claimed k = some m.type) :
    ∀ (pre : List (Nat × HandlerKind)) (fuel : Nat),
      isChain heap (pre ++ (a, k) :: suf) = true →
      (∀ x ∈ pre, claimed x.2 ≠ some m.type) →
      handle heap (fuel + pre.length + 1) (entry (pre ++ (a, k) :: suf)) m w =
        ⟨(handle (alone k) 1 0 m w).outcome, (handle (alone k) 1 0 m w).world,
          pre.map Prod.fst ++ [a]⟩ := by
  intro pre
  induction pre with
  | nil =>
    intro fuel hc _
    obtain ⟨hget, _⟩ := (isChain_cons heap a k suf).1 hc
    simpa [entry] using handle_claim heap fuel a k _ m w hget hk
  | cons x rest ih =>
    intro fuel hc hno
    obtain ⟨b, kb⟩ := x
    have hc2 : isChain heap ((b, kb) :: (rest ++ (a, k) :: suf)) = true := by simpa using hc
    obtain ⟨hget, hrest⟩ := (isChain_cons heap b kb _).1 hc2
    have hkb : claimed kb ≠ some m.type := hno (b, kb) (List.mem_cons_self _ _)
    have hstep := handle_decline heap (fuel + rest.length + 1) b kb _ m w hget hkb
    have hlen : fuel + ((b, kb) :: rest).length + 1 = fuel + rest.length + 1 + 1 := by
      simp; omega
    have hentry : entry ((b, kb) :: rest ++ (a, k) :: suf) = b := rfl
    have hch : isChain heap (rest ++ (a, k) :: suf) = true := by
      rcases hrest with hnil | hch
      · simp at hnil
      · exact hch
    rw [hlen, hentry, hstep, head?_fst_of_isChain heap _ hch]
    simp only [LogHandler.handle]
    rw [ih fuel hch (fun x hx => hno x (List.mem_cons_of_mem _ hx))]
    simp [Run.enter]

/-! ## Text of the exceptions and of the lines written -/

theorem fatalError_what_inj (t t2 : String) (h : (fatalError t2).what = (fatalError t).what) :
    t2 = t := by
  have hd := congrArg String.data h
  simp only [fatalError, String.data_append, List.append_cancel_left_eq] at hd
  exact String.ext hd

theorem unknownError_ne_unhandledError (t : String) : unknownError t ≠ unhandledError := by
  intro h
  have hd := congrArg (fun e => e.what.data) h
  simp [unknownError, unhandledError, String.data_append] at hd

/-! ## The four demonstration dispatches -/

/-- C1: a `Warning` message given to the entry handler of the chain
[WarningHandler, ErrorHandler, FatalErrorHandler, UnknownHandler] returns
normally, appends the one line "Warning: " ++ t ++ newline to the console
and changes no file (nor the error stream); only the entry handler runs. -/
theorem warning_dispatch (heap : Heap) (p a1 a2 a3 : Nat) (path t : String) (fuel : Nat)
    (w : World)
    (hc : isChain heap [(p, .WarningHandler), (a1, .ErrorHandler path),
      (a2, .FatalErrorHandler), (a3, .UnknownHandler)] = true) :
    (handle heap (fuel + 1) p ⟨.Warning, t⟩ w).outcome = .returned ∧
    (handle heap (fuel + 1) p ⟨.Warning, t⟩ w).world.cout = w.cout ++ ("Warning: " ++ t ++ "\n") ∧
    (handle heap (fuel + 1) p ⟨.Warning, t⟩ w).world.files = w.files ∧
    (handle heap (fuel + 1) p ⟨.Warning, t⟩ w).world.cerr = w.cerr ∧
    (handle heap (fuel + 1) p ⟨.Warning, t⟩ w).world.openable = w.openable ∧
    (handle heap (fuel + 1) p ⟨.Warning, t⟩ w).visited = [p] := by
  obtain ⟨hget, _⟩ := (isChain_cons heap p _ _).1 hc
  rw [handle_succ heap fuel p _ _ w hget]
  simp [WarningHandler.handle, Run.enter, World.writeCout, String.append_assoc]

/-- Witness of C1: the wiring of `main`, its `warning` message, a fresh environment. -/
theorem warning_dispatch_witness :
    isChain (mainWiring "log.txt") [(2, .WarningHandler), (1, .ErrorHandler "log.txt"),
      (0, .FatalErrorHandler), (3, .UnknownHandler)] = true ∧
    (handle (mainWiring "log.txt") (3 + 1) 2 ⟨.Warning, "Low disk space."⟩ freshWorld).outcome
      = .returned ∧
    (handle (mainWiring "log.txt") (3 + 1) 2 ⟨.Warning, "Low disk space."⟩ freshWorld).world.cout
      = freshWorld.cout ++ ("Warning: " ++ "Low disk space." ++ "\n") ∧
    (handle (mainWiring "log.txt") (3 + 1) 2 ⟨.Warning, "Low disk space."⟩ freshWorld).world.files
      = freshWorld.files ∧
    (handle (mainWiring "log.txt") (3 + 1) 2 ⟨.Warning, "Low disk space."⟩ freshWorld).world.cerr
      = freshWorld.cerr ∧
    (handle (mainWiring "log.txt") (3 + 1) 2 ⟨.Warning, "Low disk space."⟩
      freshWorld).world.openable = freshWorld.openable ∧
    (handle (mainWiring "log.txt") (3 + 1) 2 ⟨.Warning, "Low disk space."⟩ freshWorld).visited
      = [2] :=
  ⟨by decide, warning_dispatch (mainWiring "log.txt") 2 1 0 3 "log.txt" "Low disk space." 3
    freshWorld (by decide)⟩

/-- C2, as stated, fails: a file that can be opened need not take the write.
On a full device `log.txt` opens for append, the write of the line fails and
`ErrorHandler::handle`, which does not test the stream, returns normally:
`log.txt` still holds what it held, without the line. -/
theorem error_line_lost_when_write_fails :
    isChain (mainWiring "log.txt") [(2, .WarningHandler), (1, .ErrorHandler "log.txt"),
      (0, .FatalErrorHandler), (3, .UnknownHandler)] = true ∧
    fullDiskWorld.openable "log.txt" = true ∧
    fullDiskWorld.files "log.txt" = some "boot\n" ∧
    (handle (mainWiring "log.txt") 4 2 ⟨.Error, "Failed to open file."⟩
      fullDiskWorld).outcome = .returned ∧
    (handle (mainWiring "log.txt") 4 2 ⟨.Error, "Failed to open file."⟩
      fullDiskWorld).world.files "log.txt" = some "boot\n" ∧
    (handle (mainWiring "log.txt") 4 2 ⟨.Error, "Failed to open file."⟩
      fullDiskWorld).world.files "log.txt"
      ≠ some ("boot\n" ++ ("Error: " ++ "Failed to open file." ++ "\n")) := by
  decide

/-- C2, amended: when the configured file can be opened for append, holds `c`
and takes the write, an `Error` message given to the chain [WarningHandler,
ErrorHandler, FatalErrorHandler, UnknownHandler] returns normally, the file
then holds c ++ "Error: " ++ t ++ newline, every other file is as before and
nothing is written to the console or the error stream; the handlers entered
are the first two. -/
theorem error_dispatch (heap : Heap) (p a1 a2 a3 : Nat) (path t c : String) (fuel : Nat)
    (w : World)
    (hc : isChain heap [(p, .WarningHandler), (a1, .ErrorHandler path),
      (a2, .FatalErrorHandler), (a3, .UnknownHandler)] = true)
    (hopen : w.openable path = true) (hwrite : w.writable path = true)
    (hfile : w.files path = some c) :
    (handle heap (fuel + 2) p ⟨.Error, t⟩ w).outcome = .returned ∧
    (handle heap (fuel + 2) p ⟨.Error, t⟩ w).world.files path
      = some (c ++ ("Error: " ++ t ++ "\n")) ∧
    (∀ q, q ≠ path → (handle heap (fuel + 2) p ⟨.Error, t⟩ w).world.files q = w.files q) ∧
    (handle heap (fuel + 2) p ⟨.Error, t⟩ w).world.cout = w.cout ∧
    (handle heap (fuel + 2) p ⟨.Error, t⟩ w).world.cerr = w.cerr ∧
    (handle heap (fuel + 2) p ⟨.Error, t⟩ w).visited = [p, a1] := by
  have h := handle_first heap ⟨.Error, t⟩ w a1 (.ErrorHandler path)
    [(a2, .FatalErrorHandler), (a3, .UnknownHandler)] rfl [(p, .WarningHandler)] fuel hc
    (by simp [claimed])
  have he : entry ([(p, HandlerKind.WarningHandler)] ++
      (a1, HandlerKind.ErrorHandler path) ::
        [(a2, HandlerKind.FatalErrorHandler), (a3, HandlerKind.UnknownHandler)]) = p := rfl
  rw [he] at h
  have hf : fuel + [(p, HandlerKind.WarningHandler)].length + 1 = fuel + 2 := rfl
  rw [hf] at h
  rw [h, handle_succ (alone (.ErrorHandler path)) 0 0 ⟨.ErrorHandler path, none⟩ _ w rfl]
  simp [ErrorHandler.handle, Run.enter, World.appendFile, hopen, hwrite, hfile,
    String.append_assoc]
  intro q hq
  simp [hq]

/-- Witness of C2 (amended): the wiring of `main`, its `error` message, a
`log.txt` that already holds a line. -/
theorem error_dispatch_witness :
    isChain (mainWiring "log.txt") [(2, .WarningHandler), (1, .ErrorHandler "log.txt"),
      (0, .FatalErrorHandler), (3, .UnknownHandler)] = true ∧
    loggedWorld.openable "log.txt" = true ∧
    loggedWorld.writable "log.txt" = true ∧
    loggedWorld.files "log.txt" = some "boot\n" ∧
    (handle (mainWiring "log.txt") (2 + 2) 2 ⟨.Error, "Failed to open file."⟩
      loggedWorld).outcome = .returned ∧
    (handle (mainWiring "log.txt") (2 + 2) 2 ⟨.Error, "Failed to open file."⟩
      loggedWorld).world.files "log.txt"
      = some ("boot\n" ++ ("Error: " ++ "Failed to open file." ++ "\n")) ∧
    (∀ q, q ≠ "log.txt" →
      (handle (mainWiring "log.txt") (2 + 2) 2 ⟨.Error, "Failed to open file."⟩
        loggedWorld).world.files q = loggedWorld.files q) ∧
    (handle (mainWiring "log.txt") (2 + 2) 2 ⟨.Error, "Failed to open file."⟩
      loggedWorld).world.cout = loggedWorld.cout ∧
    (handle (mainWiring "log.txt") (2 + 2) 2 ⟨.Error, "Failed to open file."⟩
      loggedWorld).world.cerr = loggedWorld.cerr ∧
    (handle (mainWiring "log.txt") (2 + 2) 2 ⟨.Error, "Failed to open file."⟩
      loggedWorld).visited = [2, 1] :=
  ⟨by decide, by decide, by decide, by decide,
    error_dispatch (mainWiring "log.txt") 2 1 0 3 "log.txt" "Failed to open file." "boot\n" 2
      loggedWorld (by decide) (by decide) (by decide) (by decide)⟩

/-- C3: a `FatalError` message given to the chain [WarningHandler,
ErrorHandler, FatalErrorHandler, UnknownHandler] ends with the exception whose
text is "Fatal error: " ++ t; that text determines t; the environment
(console, error stream, files) is left as it was; the last handler is not
entered. -/
theorem fatal_dispatch (heap : Heap) (p a1 a2 a3 : Nat) (path t : String) (fuel : Nat)
    (w : World)
    (hc : isChain heap [(p, .WarningHandler), (a1, .ErrorHandler path),
      (a2, .FatalErrorHandler), (a3, .UnknownHandler)] = true) :
    (handle heap (fuel + 3) p ⟨.FatalError, t⟩ w).outcome = .threw (fatalError t) ∧
    (fatalError t).what = "Fatal error: " ++ t ∧
    (∀ t2, (fatalError t2).what = (fatalError t).what → t2 = t) ∧
    (handle heap (fuel + 3) p ⟨.FatalError, t⟩ w).world = w ∧
    (handle heap (fuel + 3) p ⟨.FatalError, t⟩ w).visited = [p, a1, a2] := by
  have h := handle_first heap ⟨.FatalError, t⟩ w a2 .FatalErrorHandler
    [(a3, .UnknownHandler)] rfl [(p, .WarningHandler), (a1, .ErrorHandler path)] fuel hc
    (by simp [claimed])
  have he : entry ([(p, HandlerKind.WarningHandler), (a1, HandlerKind.ErrorHandler path)] ++
      (a2, HandlerKind.FatalErrorHandler) :: [(a3, HandlerKind.UnknownHandler)]) = p := rfl
  rw [he] at h
  have hf : fuel + [(p, HandlerKind.WarningHandler),
      (a1, HandlerKind.ErrorHandler path)].length + 1 = fuel + 3 := rfl
  rw [hf] at h
  rw [h, handle_succ (alone .FatalErrorHandler) 0 0 ⟨.FatalErrorHandler, none⟩ _ w rfl]
  refine ⟨?_, rfl, fun t2 h2 => fatalError_what_inj t t2 h2, ?_, ?_⟩ <;>
    simp [FatalErrorHandler.handle, Run.enter]

/-- Witness of C3: the wiring of `main` and its `fatal` message. -/
theorem fatal_dispatch_witness :
    isChain (mainWiring "log.txt") [(2, .WarningHandler), (1, .ErrorHandler "log.txt"),
      (0, .FatalErrorHandler), (3, .UnknownHandler)] = true ∧
    (handle (mainWiring "log.txt") (1 + 3) 2 ⟨.FatalError, "Memory corruption detected."⟩
      freshWorld).outcome = .threw (fatalError "Memory corruption detected.") ∧
    (fatalError "Memory corruption detected.").what
      = "Fatal error: " ++ "Memory corruption detected." ∧
    (∀ t2, (fatalError t2).what = (fatalError "Memory corruption detected.").what →
      t2 = "Memory corruption detected.") ∧
    (handle (mainWiring "log.txt") (1 + 3) 2 ⟨.FatalError, "Memory corruption detected."⟩
      freshWorld).world = freshWorld ∧
    (handle (mainWiring "log.txt") (1 + 3) 2 ⟨.FatalError, "Memory corruption detected."⟩
      freshWorld).visited = [2, 1, 0] :=
  ⟨by decide, fatal_dispatch (mainWiring "log.txt") 2 1 0 3 "log.txt"
    "Memory corruption detected." 1 freshWorld (by decide)⟩

/-- C4: an `Unknown` message given to the chain [WarningHandler, ErrorHandler,
FatalErrorHandler, UnknownHandler] ends with the exception whose text is
"Unknown log message: " ++ t, which is never the exception "Unhandled log
message"; the environment is left as it was; all four handlers are entered. -/
theorem unknown_dispatch (heap : Heap) (p a1 a2 a3 : Nat) (path t : String) (fuel : Nat)
    (w : World)
    (hc : isChain heap [(p, .WarningHandler), (a1, .ErrorHandler path),
      (a2, .FatalErrorHandler), (a3, .UnknownHandler)] = true) :
    (handle heap (fuel + 4) p ⟨.Unknown, t⟩ w).outcome = .threw (unknownError t) ∧
    (unknownError t).what = "Unknown log message: " ++ t ∧
    (handle heap (fuel + 4) p ⟨.Unknown, t⟩ w).outcome ≠ .threw unhandledError ∧
    (handle heap (fuel + 4) p ⟨.Unknown, t⟩ w).world = w ∧
    (handle heap (fuel + 4) p ⟨.Unknown, t⟩ w).visited = [p, a1, a2, a3] := by
  have h := handle_first heap ⟨.Unknown, t⟩ w a3 .UnknownHandler [] rfl
    [(p, .WarningHandler), (a1, .ErrorHandler path), (a2, .FatalErrorHandler)] fuel hc
    (by simp [claimed])
  have he : entry ([(p, HandlerKind.WarningHandler), (a1, HandlerKind.ErrorHandler path),
      (a2, HandlerKind.FatalErrorHandler)] ++ (a3, HandlerKind.UnknownHandler) :: []) = p := rfl
  rw [he] at h
  have hf : fuel + [(p, HandlerKind.WarningHandler), (a1, HandlerKind.ErrorHandler path),
      (a2, HandlerKind.FatalErrorHandler)].length + 1 = fuel + 4 := rfl
  rw [hf] at h
  rw [h, handle_succ (alone .UnknownHandler) 0 0 ⟨.UnknownHandler, none⟩ _ w rfl]
  refine ⟨?_, rfl, ?_, ?_, ?_⟩
  · simp [UnknownHandler.handle, Run.enter]
  · simpa [UnknownHandler.handle, Run.enter] using unknownError_ne_unhandledError t
  · simp [UnknownHandler.handle, Run.enter]
  · simp [UnknownHandler.handle, Run.enter]

/-- Witness of C4: the wiring of `main` and its `unknown` message. -/
theorem unknown_dispatch_witness :
    isChain (mainWiring "log.txt") [(2, .WarningHandler), (1, .ErrorHandler "log.txt"),
      (0, .FatalErrorHandler), (3, .UnknownHandler)] = true ∧
    (handle (mainWiring "log.txt") (0 + 4) 2 ⟨.Unknown, "Unrecognized format."⟩
      freshWorld).outcome = .threw (unknownError "Unrecognized format.") ∧
    (unknownError "Unrecognized format.").what
      = "Unknown log message: " ++ "Unrecognized format." ∧
    (handle (mainWiring "log.txt") (0 + 4) 2 ⟨.Unknown, "Unrecognized format."⟩
      freshWorld).outcome ≠ .threw unhandledError ∧
    (handle (mainWiring "log.txt") (0 + 4) 2 ⟨.Unknown, "Unrecognized format."⟩
      freshWorld).world = freshWorld ∧
    (handle (mainWiring "log.txt") (0 + 4) 2 ⟨.Unknown, "Unrecognized format."⟩
      freshWorld).visited = [2, 1, 0, 3] :=
  ⟨by decide, unknown_dispatch (mainWiring "log.txt") 2 1 0 3 "log.txt"
    "Unrecognized format." 0 freshWorld (by decide)⟩

/-! ## Properties of every chain -/

/-- C5 (chain exhaustion): on every chain (non-empty, ending in `nullptr`)
and for every message whose type no handler of the chain claims, dispatch ends
with the exception "Unhandled log message", never with a normal return, after
every handler was entered once in chain order, and leaves the console, the
error stream and the files as they were. -/
theorem chain_exhaustion (heap : Heap) (c : List (Nat × HandlerKind)) (m : LogMessage)
    (w : World) (fuel : Nat) (hc : isChain heap c = true)
    (hno : ∀ x ∈ c, claimed x.2 ≠ some m.type) :
    (handle heap (fuel + c.length) (entry c) m w).outcome = .threw unhandledError ∧
    unhandledError.what = "Unhandled log message" ∧
    (handle heap (fuel + c.length) (entry c) m w).outcome ≠ .returned ∧
    (handle heap (fuel + c.length) (entry c) m w).world = w ∧
    (handle heap (fuel + c.length) (entry c) m w).visited = c.map Prod.fst := by
  rw [handle_exhaust heap m w c fuel hc hno]
  simp [unhandledError]

/-- Witness of C5: the chain [WarningHandler] given (Error, "x"). -/
theorem chain_exhaustion_witness :
    isChain (alone .WarningHandler) [(0, .WarningHandler)] = true ∧
    (∀ x ∈ [(0, HandlerKind.WarningHandler)],
      claimed x.2 ≠ some (LogMessage.mk .Error "x").type) ∧
    (handle (alone .WarningHandler) (0 + [(0, HandlerKind.WarningHandler)].length)
      (entry [(0, .WarningHandler)]) ⟨.Error, "x"⟩ freshWorld).outcome
      = .threw unhandledError ∧
    unhandledError.what = "Unhandled log message" ∧
    (handle (alone .WarningHandler) (0 + [(0, HandlerKind.WarningHandler)].length)
      (entry [(0, .WarningHandler)]) ⟨.Error, "x"⟩ freshWorld).outcome ≠ .returned ∧
    (handle (alone .WarningHandler) (0 + [(0, HandlerKind.WarningHandler)].length)
      (entry [(0, .WarningHandler)]) ⟨.Error, "x"⟩ freshWorld).world = freshWorld ∧
    (handle (alone .WarningHandler) (0 + [(0, HandlerKind.WarningHandler)].length)
      (entry [(0, .WarningHandler)]) ⟨.Error, "x"⟩ freshWorld).visited
      = [(0, HandlerKind.WarningHandler)].map Prod.fst :=
  ⟨by decide, by decide,
    chain_exhaustion (alone .WarningHandler) [(0, .WarningHandler)] ⟨.Error, "x"⟩ freshWorld 0
      (by decide) (by decide)⟩

/-! ## A chain visits no address twice -/

theorem isChain_suffix (heap : Heap) (x : Nat × HandlerKind) (l2 : List (Nat × HandlerKind)) :
    ∀ l1 : List (Nat × HandlerKind), isChain heap (l1 ++ x :: l2) = true →
      isChain heap (x :: l2) = true := by
  intro l1
  induction l1 with
  | nil => intro h; simpa using h
  | cons y r ih =>
    intro h
    obtain ⟨b, kb⟩ := y
    have h2 : isChain heap ((b, kb) :: (r ++ x :: l2)) = true := by simpa using h
    rcases ((isChain_cons heap b kb _).1 h2).2 with hnil | hch
    · simp at hnil
    · exact ih hch

theorem isChain_unique (heap : Heap) :
    ∀ c1 c2 : List (Nat × HandlerKind), isChain heap c1 = true → isChain heap c2 = true →
      entry c1 = entry c2 → c1 = c2 := by
  intro c1
  induction c1 with
  | nil => intro c2 h1; simp [isChain] at h1
  | cons x r1 ih =>
    intro c2 h1 h2 he
    cases c2 with
    | nil => simp [isChain] at h2
    | cons y r2 =>
      obtain ⟨a, k⟩ := x
      obtain ⟨a2, k2⟩ := y
      have ha : a = a2 := he
      subst ha
      obtain ⟨hg1, hr1⟩ := (isChain_cons heap a k r1).1 h1
      obtain ⟨hg2, hr2⟩ := (isChain_cons heap a k2 r2).1 h2
      rw [hg1] at hg2
      simp only [Option.some.injEq, Handler.mk.injEq] at hg2
      obtain ⟨hk, hnext⟩ := hg2
      subst hk
      rcases hr1 with hnil1 | hch1
      · subst hnil1
        cases r2 with
        | nil => rfl
        | cons z r => simp at hnext
      · rcases hr2 with hnil2 | hch2
        · subst hnil2
          rw [head?_fst_of_isChain heap r1 hch1] at hnext
          simp at hnext
        · rw [head?_fst_of_isChain heap r1 hch1, head?_fst_of_isChain heap r2 hch2] at hnext
          rw [ih r2 hch1 hch2 (Option.some.inj hnext)]

theorem isChain_nodup (heap : Heap) :
    ∀ c : List (Nat × HandlerKind), isChain heap c = true → (c.map Prod.fst).Nodup := by
  intro c
  induction c with
  | nil => intro _; simp
  | cons x rest ih =>
    intro hc
    obtain ⟨a, k⟩ := x
    rcases ((isChain_cons heap a k rest).1 hc).2 with hnil | hch
    · subst hnil; simp
    · rw [List.map_cons, List.nodup_cons]
      refine ⟨?_, ih hch⟩
      intro hmem
      obtain ⟨y, hy, hya⟩ := List.mem_map.1 hmem
      obtain ⟨l1, l2, hsplit⟩ := List.append_of_mem hy
      obtain ⟨b, kb⟩ := y
      have hb : b = a := hya
      subst hb
      have hsuf : isChain heap ((b, kb) :: l2) = true := by
        apply isChain_suffix heap (b, kb) l2 l1
        rw [← hsplit]; exact hch
      have heq := isChain_unique heap _ _ hc hsuf rfl
      have hlen := congrArg List.length heq
      rw [hsplit] at hlen
      simp at hlen
      omega

theorem suffix_not_entered (heap : Heap) (pre suf : List (Nat × HandlerKind)) (a : Nat)
    (k : HandlerKind) (hc : isChain heap (pre ++ (a, k) :: suf) = true) :
    ∀ x ∈ suf, x.1 ∉ pre.map Prod.fst ++ [a] := by
  have hnd := isChain_nodup heap _ hc
  have hmap : (pre ++ (a, k) :: suf).map Prod.fst
      = (pre.map Prod.fst ++ [a]) ++ suf.map Prod.fst := by simp
  rw [hmap, List.nodup_append] at hnd
  intro x hx hin
  exact hnd.2.2 hin (List.mem_map_of_mem _ hx)

/-- The environment a handler standing alone leaves differs from the one it
found at most in the console and in the file of an `ErrorHandler`. -/
theorem alone_files (k : HandlerKind) (m : LogMessage) (w : World) (path2 : String)
    (hk : k ≠ .ErrorHandler path2) :
    (handle (alone k) 1 0 m w).world.files path2 = w.files path2 := by
  rw [handle_succ (alone k) 0 0 ⟨k, none⟩ m w rfl]
  cases k with
  | LogHandler => simp [LogHandler.handle, Run.enter]
  | FatalErrorHandler =>
    simp only [FatalErrorHandler.handle, LogHandler.handle, Run.enter]; split <;> rfl
  | WarningHandler =>
    simp only [WarningHandler.handle, LogHandler.handle, Run.enter]; split <;> rfl
  | UnknownHandler =>
    simp only [UnknownHandler.handle, LogHandler.handle, Run.enter]; split <;> rfl
  | ErrorHandler path =>
    have hp : path2 ≠ path := fun h => hk (by rw [h])
    simp only [ErrorHandler.handle, LogHandler.handle, Run.enter]
    split
    · split
      · rfl
      · simp [World.appendFile, hp]
    · rfl

/-- C6 (first match wins): on every chain, when the handler at `a` of class `k`
is the earliest one that claims the type of the message, the outcome and the
environment after dispatch are those of that handler handling the message on
its own; the handlers entered are those up to `a`, none after it; and the file
of every later `ErrorHandler` with another path (of every handler but `k`
itself) is as it was. -/
theorem first_match_wins (heap : Heap) (pre suf : List (Nat × HandlerKind)) (a : Nat)
    (k : HandlerKind) (m : LogMessage) (w : World) (fuel : Nat)
    (hc : isChain heap (pre ++ (a, k) :: suf) = true)
    (hpre : ∀ x ∈ pre, claimed x.2 ≠ some m.type)
    (hk : claimed k = some m.type) :
    (handle heap (fuel + pre.length + 1) (entry (pre ++ (a, k) :: suf)) m w).outcome
      = (handle (alone k) 1 0 m w).outcome ∧
    (handle heap (fuel + pre.length + 1) (entry (pre ++ (a, k) :: suf)) m w).world
      = (handle (alone k) 1 0 m w).world ∧
    (handle heap (fuel + pre.length + 1) (entry (pre ++ (a, k) :: suf)) m w).visited
      = pre.map Prod.fst ++ [a] ∧
    (∀ x ∈ suf, x.1 ∉
      (handle heap (fuel + pre.length + 1) (entry (pre ++ (a, k) :: suf)) m w).visited) ∧
    (∀ path2, k ≠ .ErrorHandler path2 →
      (handle heap (fuel + pre.length + 1) (entry (pre ++ (a, k) :: suf)) m w).world.files path2
        = w.files path2) := by
  rw [handle_first heap m w a k suf hk pre fuel hc hpre]
  exact ⟨rfl, rfl, rfl, suffix_not_entered heap pre suf a k hc,
    fun path2 h2 => alone_files k m w path2 h2⟩

/-- Witness of C6: two `ErrorHandler` objects with different files; only the
file of the first one gains the line. -/
theorem first_match_wins_witness :
    isChain twoErrorHandlers ([] ++ (0, .ErrorHandler "a.txt") :: [(1, .ErrorHandler "b.txt")])
      = true ∧
    (∀ x ∈ ([] : List (Nat × HandlerKind)), claimed x.2 ≠ some (LogMessage.mk .Error "x").type) ∧
    claimed (.ErrorHandler "a.txt") = some (LogMessage.mk .Error "x").type ∧
    ((handle twoErrorHandlers 2 0 ⟨.Error, "x"⟩ freshWorld).outcome
      = (handle (alone (.ErrorHandler "a.txt")) 1 0 ⟨.Error, "x"⟩ freshWorld).outcome ∧
    (handle twoErrorHandlers 2 0 ⟨.Error, "x"⟩ freshWorld).world
      = (handle (alone (.ErrorHandler "a.txt")) 1 0 ⟨.Error, "x"⟩ freshWorld).world ∧
    (handle twoErrorHandlers 2 0 ⟨.Error, "x"⟩ freshWorld).visited = [0] ∧
    (∀ x ∈ [(1, HandlerKind.ErrorHandler "b.txt")],
      x.1 ∉ (handle twoErrorHandlers 2 0 ⟨.Error, "x"⟩ freshWorld).visited) ∧
    (∀ path2, HandlerKind.ErrorHandler "a.txt" ≠ .ErrorHandler path2 →
      (handle twoErrorHandlers 2 0 ⟨.Error, "x"⟩ freshWorld).world.files path2
        = freshWorld.files path2)) ∧
    (handle twoErrorHandlers 2 0 ⟨.Error, "x"⟩ freshWorld).world.files "a.txt"
      = some "Error: x\n" ∧
    (handle twoErrorHandlers 2 0 ⟨.Error, "x"⟩ freshWorld).world.files "b.txt" = none :=
  ⟨by decide, by decide, by decide,
    first_match_wins twoErrorHandlers [] [(1, .ErrorHandler "b.txt")] 0 (.ErrorHandler "a.txt")
      ⟨.Error, "x"⟩ freshWorld 1 (by decide) (by decide) (by decide),
    by decide, by decide⟩

/-- C7 (fatal and unknown short-circuit): when the earliest handler that claims
the type of the message is a `FatalErrorHandler` or an `UnknownHandler`, the
handlers entered are those up to it and none after it, the exception is the one
of that handler, the environment is left as it was, and outcome and
environment are the same on any other chain that has the same classes up to
that handler, whatever follows it there (nothing included). -/
theorem fatal_unknown_short_circuit (heap heap2 : Heap)
    (pre suf pre2 suf2 : List (Nat × HandlerKind)) (a a2 : Nat) (k : HandlerKind)
    (m : LogMessage) (w : World) (fuel fuel2 : Nat)
    (hc : isChain heap (pre ++ (a, k) :: suf) = true)
    (hc2 : isChain heap2 (pre2 ++ (a2, k) :: suf2) = true)
    (hsame : pre2.map Prod.snd = pre.map Prod.snd)
    (hpre : ∀ x ∈ pre, claimed x.2 ≠ some m.type)
    (hk : claimed k = some m.type)
    (hfu : k = .FatalErrorHandler ∨ k = .UnknownHandler) :
    (handle heap (fuel + pre.length + 1) (entry (pre ++ (a, k) :: suf)) m w).visited
      = pre.map Prod.fst ++ [a] ∧
    (∀ x ∈ suf, x.1 ∉
      (handle heap (fuel + pre.length + 1) (entry (pre ++ (a, k) :: suf)) m w).visited) ∧
    (handle heap (fuel + pre.length + 1) (entry (pre ++ (a, k) :: suf)) m w).outcome
      = .threw (if k = .FatalErrorHandler then fatalError m.message
          else unknownError m.message) ∧
    (handle heap (fuel + pre.length + 1) (entry (pre ++ (a, k) :: suf)) m w).world = w ∧
    (handle heap2 (fuel2 + pre2.length + 1) (entry (pre2 ++ (a2, k) :: suf2)) m w).outcome
      = (handle heap (fuel + pre.length + 1) (entry (pre ++ (a, k) :: suf)) m w).outcome ∧
    (handle heap2 (fuel2 + pre2.length + 1) (entry (pre2 ++ (a2, k) :: suf2)) m w).world
      = (handle heap (fuel + pre.length + 1) (entry (pre ++ (a, k) :: suf)) m w).world := by
  have hpre2 : ∀ x ∈ pre2, claimed x.2 ≠ some m.type := by
    intro x hx
    have hmem : x.2 ∈ pre.map Prod.snd := by
      rw [← hsame]; exact List.mem_map_of_mem _ hx
    obtain ⟨y, hy, hyx⟩ := List.mem_map.1 hmem
    rw [← hyx]; exact hpre y hy
  rw [handle_first heap m w a k suf hk pre fuel hc hpre,
    handle_first heap2 m w a2 k suf2 hk pre2 fuel2 hc2 hpre2,
    handle_succ (alone k) 0 0 ⟨k, none⟩ m w rfl]
  refine ⟨rfl, suffix_not_entered heap pre suf a k hc, ?_, ?_, rfl, rfl⟩
  · rcases hfu with h | h <;> subst h <;> simp only [claimed, Option.some.injEq] at hk <;>
      simp [FatalErrorHandler.handle, UnknownHandler.handle, Run.enter, ← hk]
  · rcases hfu with h | h <;> subst h <;> simp only [claimed, Option.some.injEq] at hk <;>
      simp [FatalErrorHandler.handle, UnknownHandler.handle, Run.enter, ← hk]

/-- Witness of C7: the `fatal` message of `main` on the chain of `main` and on
the same chain cut after the `FatalErrorHandler`. -/
theorem fatal_unknown_short_circuit_witness :
    isChain (mainWiring "log.txt") ([(2, .WarningHandler), (1, .ErrorHandler "log.txt")] ++
      (0, .FatalErrorHandler) :: [(3, .UnknownHandler)]) = true ∧
    isChain threeHandlers ([(0, .WarningHandler), (1, .ErrorHandler "log.txt")] ++
      (2, .FatalErrorHandler) :: []) = true ∧
    (handle (mainWiring "log.txt") 3 2 fatal freshWorld).visited = [2, 1, 0] ∧
    (∀ x ∈ [(3, HandlerKind.UnknownHandler)],
      x.1 ∉ (handle (mainWiring "log.txt") 3 2 fatal freshWorld).visited) ∧
    (handle (mainWiring "log.txt") 3 2 fatal freshWorld).outcome
      = .threw (fatalError "Memory corruption detected.") ∧
    (handle (mainWiring "log.txt") 3 2 fatal freshWorld).world = freshWorld ∧
    (handle threeHandlers 3 0 fatal freshWorld).outcome
      = (handle (mainWiring "log.txt") 3 2 fatal freshWorld).outcome ∧
    (handle threeHandlers 3 0 fatal freshWorld).world
      = (handle (mainWiring "log.txt") 3 2 fatal freshWorld).world :=
  ⟨by decide, by decide,
    fatal_unknown_short_circuit (mainWiring "log.txt") threeHandlers
      [(2, .WarningHandler), (1, .ErrorHandler "log.txt")] [(3, .UnknownHandler)]
      [(0, .WarningHandler), (1, .ErrorHandler "log.txt")] [] 0 2 .FatalErrorHandler
      fatal freshWorld 0 0 (by decide) (by decide) (by decide) (by decide) (by decide)
      (by decide)⟩

/-- C8 (sink unavailable): on every chain whose earliest handler claiming
`Error` is an `ErrorHandler` with file `path`, an `Error` message ends with the
exception "Unable to open log file" exactly when `path` cannot be opened for
append; then the console, the error stream and every file are as before; when
`path` can be opened the call returns normally; in both cases no handler after
that `ErrorHandler` is entered. -/
theorem sink_unavailable (heap : Heap) (pre suf : List (Nat × HandlerKind)) (a : Nat)
    (path t : String) (w : World) (fuel : Nat)
    (hc : isChain heap (pre ++ (a, .ErrorHandler path) :: suf) = true)
    (hpre : ∀ x ∈ pre, claimed x.2 ≠ some .Error) :
    ((handle heap (fuel + pre.length + 1) (entry (pre ++ (a, .ErrorHandler path) :: suf))
      ⟨.Error, t⟩ w).outcome = .threw sinkError ↔ w.openable path = false) ∧
    sinkError.what = "Unable to open log file" ∧
    (w.openable path = false →
      (handle heap (fuel + pre.length + 1) (entry (pre ++ (a, .ErrorHandler path) :: suf))
        ⟨.Error, t⟩ w).world = w) ∧
    (w.openable path = true →
      (handle heap (fuel + pre.length + 1) (entry (pre ++ (a, .ErrorHandler path) :: suf))
        ⟨.Error, t⟩ w).outcome = .returned) ∧
    (handle heap (fuel + pre.length + 1) (entry (pre ++ (a, .ErrorHandler path) :: suf))
      ⟨.Error, t⟩ w).visited = pre.map Prod.fst ++ [a] ∧
    (∀ x ∈ suf, x.1 ∉
      (handle heap (fuel + pre.length + 1) (entry (pre ++ (a, .ErrorHandler path) :: suf))
        ⟨.Error, t⟩ w).visited) := by
  rw [handle_first heap ⟨.Error, t⟩ w a (.ErrorHandler path) suf rfl pre fuel hc hpre,
    handle_succ (alone (.ErrorHandler path)) 0 0 ⟨.ErrorHandler path, none⟩ _ w rfl]
  refine ⟨?_, rfl, ?_, ?_, rfl, suffix_not_entered heap pre suf a _ hc⟩
  · cases hopen : w.openable path <;> simp [ErrorHandler.handle, Run.enter, hopen]
  · intro hopen; simp [ErrorHandler.handle, Run.enter, hopen]
  · intro hopen; simp [ErrorHandler.handle, Run.enter, hopen]

/-- Witness of C8: the chain of `main` and (Error, "x") when no file can be opened. -/
theorem sink_unavailable_witness :
    isChain (mainWiring "log.txt") ([(2, .WarningHandler)] ++
      (1, .ErrorHandler "log.txt") :: [(0, .FatalErrorHandler), (3, .UnknownHandler)]) = true ∧
    (∀ x ∈ [(2, HandlerKind.WarningHandler)], claimed x.2 ≠ some .Error) ∧
    lockedWorld.openable "log.txt" = false ∧
    ((handle (mainWiring "log.txt") 2 2 ⟨.Error, "x"⟩ lockedWorld).outcome = .threw sinkError ↔
      lockedWorld.openable "log.txt" = false) ∧
    sinkError.what = "Unable to open log file" ∧
    (lockedWorld.openable "log.txt" = false →
      (handle (mainWiring "log.txt") 2 2 ⟨.Error, "x"⟩ lockedWorld).world = lockedWorld) ∧
    (lockedWorld.openable "log.txt" = true →
      (handle (mainWiring "log.txt") 2 2 ⟨.Error, "x"⟩ lockedWorld).outcome = .returned) ∧
    (handle (mainWiring "log.txt") 2 2 ⟨.Error, "x"⟩ lockedWorld).visited = [2, 1] ∧
    (∀ x ∈ [(0, HandlerKind.FatalErrorHandler), (3, HandlerKind.UnknownHandler)],
      x.1 ∉ (handle (mainWiring "log.txt") 2 2 ⟨.Error, "x"⟩ lockedWorld).visited) :=
  ⟨by decide, by decide, by decide,
    sink_unavailable (mainWiring "log.txt") [(2, .WarningHandler)]
      [(0, .FatalErrorHandler), (3, .UnknownHandler)] 1 "log.txt" "x" lockedWorld 0
      (by decide) (by decide)⟩

/-! ## The calls of `main` -/

theorem mainWiring_isChain (filePath : String) :
    isChain (mainWiring filePath) (mainChain filePath) = true := by
  simp [mainWiring, mainObjects, mainChain, setNext, isChain, warningHandler, errorHandler,
    fatalHandler, unknownHandler, List.modify]

theorem main_handle_warning (filePath t : String) (fuel : Nat) (w : World) :
    handle (mainWiring filePath) (fuel + 4) warningHandler ⟨.Warning, t⟩ w =
      ⟨.returned, w.writeCout "Warning: " t, [warningHandler]⟩ := by
  have h := handle_first (mainWiring filePath) ⟨.Warning, t⟩ w warningHandler .WarningHandler
    ((mainChain filePath).drop 1) rfl [] (fuel + 3) (mainWiring_isChain filePath)
    (by simp)
  have hs := handle_succ (alone .WarningHandler) 0 0 ⟨.WarningHandler, none⟩ ⟨.Warning, t⟩ w rfl
  rw [hs] at h
  simpa [WarningHandler.handle, Run.enter, entry, mainChain] using h

theorem main_handle_error (filePath t : String) (fuel : Nat) (w : World) :
    handle (mainWiring filePath) (fuel + 4) warningHandler ⟨.Error, t⟩ w =
      if w.openable filePath = true then
        ⟨.returned, w.appendFile filePath "Error: " t, [warningHandler, errorHandler]⟩
      else ⟨.threw sinkError, w, [warningHandler, errorHandler]⟩ := by
  have h := handle_first (mainWiring filePath) ⟨.Error, t⟩ w errorHandler
    (.ErrorHandler filePath) ((mainChain filePath).drop 2) rfl ((mainChain filePath).take 1)
    (fuel + 2) (mainWiring_isChain filePath) (by simp [mainChain, claimed])
  have hs := handle_succ (alone (.ErrorHandler filePath)) 0 0 ⟨.ErrorHandler filePath, none⟩
    ⟨.Error, t⟩ w rfl
  rw [hs] at h
  cases hopen : w.openable filePath <;>
    simpa [ErrorHandler.handle, Run.enter, entry, mainChain, hopen] using h

theorem main_handle_fatal (filePath t : String) (fuel : Nat) (w : World) :
    handle (mainWiring filePath) (fuel + 4) warningHandler ⟨.FatalError, t⟩ w =
      ⟨.threw (fatalError t), w, [warningHandler, errorHandler, fatalHandler]⟩ := by
  have h := handle_first (mainWiring filePath) ⟨.FatalError, t⟩ w fatalHandler
    .FatalErrorHandler ((mainChain filePath).drop 3) rfl ((mainChain filePath).take 2)
    (fuel + 1) (mainWiring_isChain filePath) (by simp [mainChain, claimed])
  have hs := handle_succ (alone .FatalErrorHandler) 0 0 ⟨.FatalErrorHandler, none⟩
    ⟨.FatalError, t⟩ w rfl
  rw [hs] at h
  simpa [FatalErrorHandler.handle, Run.enter, entry, mainChain] using h

theorem main_handle_unknown (filePath t : String) (fuel : Nat) (w : World) :
    handle (mainWiring filePath) (fuel + 4) warningHandler ⟨.Unknown, t⟩ w =
      ⟨.threw (unknownError t), w,
        [warningHandler, errorHandler, fatalHandler, unknownHandler]⟩ := by
  have h := handle_first (mainWiring filePath) ⟨.Unknown, t⟩ w unknownHandler
    .UnknownHandler [] rfl ((mainChain filePath).take 3)
    fuel (mainWiring_isChain filePath) (by simp [mainChain, claimed])
  have hs := handle_succ (alone .UnknownHandler) 0 0 ⟨.UnknownHandler, none⟩
    ⟨.Unknown, t⟩ w rfl
  rw [hs] at h
  simpa [UnknownHandler.handle, Run.enter, entry, mainChain] using h

/-! ## The failures and the driver -/

/-- C9: the texts of the four exceptions are "Unhandled log message", "Unable
to open log file", "Fatal error: " ++ t1 and "Unknown log message: " ++ t2,
and for all texts t1 and t2 they are pairwise different. -/
theorem failure_kinds_distinct (t1 t2 : String) :
    unhandledError.what = "Unhandled log message" ∧
    sinkError.what = "Unable to open log file" ∧
    (fatalError t1).what = "Fatal error: " ++ t1 ∧
    (unknownError t2).what = "Unknown log message: " ++ t2 ∧
    unhandledError.what ≠ sinkError.what ∧
    unhandledError.what ≠ (fatalError t1).what ∧
    unhandledError.what ≠ (unknownError t2).what ∧
    sinkError.what ≠ (fatalError t1).what ∧
    sinkError.what ≠ (unknownError t2).what ∧
    (fatalError t1).what ≠ (unknownError t2).what := by
  refine ⟨rfl, rfl, rfl, rfl, by decide, ?_, ?_, ?_, ?_, ?_⟩ <;>
    · intro h
      have hd := congrArg String.data h
      simp [unhandledError, sinkError, fatalError, unknownError, String.data_append] at hd

/-- C10, as stated, fails: when `log.txt` cannot be opened, `main` returns 0
without ever submitting its `fatal` message; the messages submitted are
`warning`, `error` and `unknown`. -/
theorem main_skips_fatal_when_locked :
    (main 4 lockedWorld).exit = some 0 ∧
    (main 4 lockedWorld).submitted = [warning, error, unknown] ∧
    fatal ∉ (main 4 lockedWorld).submitted ∧
    (main 4 lockedWorld).world.cerr =
      "Exception caught: Unable to open log file\n" ++
      "Exception caught: Unknown log message: Unrecognized format.\n" := by
  decide

/-- C10, amended: for every environment `main` returns 0; it submits `warning`
and `error`, then `fatal` when `log.txt` can be opened for append (the failure
of `error` ends the first `try` block otherwise), and in every case `unknown`
last. -/
theorem main_submissions (fuel : Nat) (w : World) :
    (main (fuel + 4) w).exit = some 0 ∧
    (main (fuel + 4) w).submitted =
      if w.openable "log.txt" = true then [warning, error, fatal, unknown]
      else [warning, error, unknown] := by
  cases hopen : w.openable "log.txt" <;>
    simp [main, tryBody, catchException, warning, error, fatal, unknown, main_handle_warning,
      main_handle_error, main_handle_fatal, main_handle_unknown, World.writeCout,
      World.appendFile, hopen]

/-! ## The first handler that claims a message -/

theorem chain_split (t : MsgType) :
    ∀ c : List (Nat × HandlerKind),
      (∀ x ∈ c, claimed x.2 ≠ some t) ∨
      ∃ pre a k suf, c = pre ++ (a, k) :: suf ∧ (∀ x ∈ pre, claimed x.2 ≠ some t) ∧
        claimed k = some t := by
  intro c
  induction c with
  | nil => left; simp
  | cons x rest ih =>
    by_cases hx : claimed x.2 = some t
    · right
      exact ⟨[], x.1, x.2, rest, rfl, by simp, hx⟩
    · rcases ih with hno | ⟨pre, a, k, suf, hsplit, hpre, hk⟩
      · left
        intro y hy
        rcases List.mem_cons.1 hy with h | h
        · rw [h]; exact hx
        · exact hno y h
      · right
        refine ⟨x :: pre, a, k, suf, by rw [hsplit]; rfl, ?_, hk⟩
        intro y hy
        rcases List.mem_cons.1 hy with h | h
        · rw [h]; exact hx
        · exact hpre y h

theorem handle_chain_cases (heap : Heap) (c : List (Nat × HandlerKind)) (m : LogMessage)
    (w : World) (fuel : Nat) (hc : isChain heap c = true) :
    ((∀ x ∈ c, claimed x.2 ≠ some m.type) ∧
      handle heap (fuel + c.length) (entry c) m w = ⟨.threw unhandledError, w, c.map Prod.fst⟩) ∨
    ∃ pre a k suf, c = pre ++ (a, k) :: suf ∧ (∀ x ∈ pre, claimed x.2 ≠ some m.type) ∧
      claimed k = some m.type ∧
      handle heap (fuel + c.length) (entry c) m w =
        ⟨(handle (alone k) 1 0 m w).outcome, (handle (alone k) 1 0 m w).world,
          pre.map Prod.fst ++ [a]⟩ := by
  rcases chain_split m.type c with hno | ⟨pre, a, k, suf, hsplit, hpre, hk⟩
  · left
    exact ⟨hno, handle_exhaust heap m w c fuel hc hno⟩
  · right
    refine ⟨pre, a, k, suf, hsplit, hpre, hk, ?_⟩
    subst hsplit
    have hlen : fuel + (pre ++ (a, k) :: suf).length = fuel + suf.length + pre.length + 1 := by
      simp; omega
    rw [hlen]
    exact handle_first heap m w a k suf hk pre (fuel + suf.length) hc hpre

theorem alone_outcome (k : HandlerKind) (m : LogMessage) (w : World)
    (hk : claimed k = some m.type) :
    (handle (alone k) 1 0 m w).outcome = .returned ∨
    (handle (alone k) 1 0 m w).outcome = .threw sinkError ∨
    (handle (alone k) 1 0 m w).outcome = .threw (fatalError m.message) ∨
    (handle (alone k) 1 0 m w).outcome = .threw (unknownError m.message) := by
  rw [handle_succ (alone k) 0 0 ⟨k, none⟩ m w rfl]
  cases k <;> simp only [claimed, Option.some.injEq, reduceCtorEq] at hk <;>
    simp [FatalErrorHandler.handle, ErrorHandler.handle, WarningHandler.handle,
      UnknownHandler.handle, Run.enter, ← hk]
  cases w.openable _ <;> simp

/-! ## Wiring a chain with `setNext` -/

theorem setNext_length (heap : Heap) (a : Nat) (q : Option Nat) :
    (setNext heap a q).length = heap.length := by
  simp [setNext]

theorem setNext_get_self (heap : Heap) (a : Nat) (q : Option Nat) (h : Handler)
    (hget : heap[a]? = some h) : (setNext heap a q)[a]? = some ⟨h.kind, q⟩ := by
  simp [setNext, hget]

theorem setNext_get_ne (heap : Heap) (a x : Nat) (q : Option Nat) (hne : a ≠ x) :
    (setNext heap a q)[x]? = heap[x]? := by
  simp [setNext, hne]

theorem setNext_kindAt (heap : Heap) (a x : Nat) (q : Option Nat) :
    kindAt (setNext heap a q) x = kindAt heap x := by
  by_cases hax : a = x
  · subst hax
    cases hget : heap[a]? with
    | none =>
      have : (setNext heap a q)[a]? = none := by simp [setNext, hget]
      simp [kindAt, hget, this]
    | some h => simp [kindAt, hget, setNext_get_self heap a q h hget]
  · simp [kindAt, setNext_get_ne heap a x q hax]

theorem wire_length : ∀ (addrs : List Nat) (heap : Heap), (wire heap addrs).length = heap.length
  | [], heap => by simp [wire]
  | [_], heap => by simp [wire]
  | a :: b :: rest, heap => by
    rw [wire, wire_length (b :: rest), setNext_length]

theorem wire_get_of_not_mem :
    ∀ (addrs : List Nat) (heap : Heap) (x : Nat), x ∉ addrs → (wire heap addrs)[x]? = heap[x]?
  | [], heap, x, _ => by simp [wire]
  | [_], heap, x, _ => by simp [wire]
  | a :: b :: rest, heap, x, hx => by
    have hxa : a ≠ x := fun h => hx (by simp [h])
    have hxr : x ∉ b :: rest := fun h => hx (List.mem_cons_of_mem _ h)
    rw [wire, wire_get_of_not_mem (b :: rest) _ x hxr, setNext_get_ne heap a x _ hxa]

theorem wire_isChain :
    ∀ (addrs : List Nat) (heap : Heap), addrs.Nodup → (∀ a ∈ addrs, a < heap.length) →
      (∀ last h, addrs.getLast? = some last → heap[last]? = some h → h.nextHandler_ = none) →
      addrs ≠ [] →
      isChain (wire heap addrs) (addrs.map (fun a => (a, kindAt heap a))) = true
  | [], _, _, _, _, hne => absurd rfl hne
  | [a], heap, _, hlt, hlast, _ => by
    have ha : a < heap.length := hlt a (by simp)
    have hget : heap[a]? = some heap[a] := List.getElem?_eq_getElem ha
    have hnone := hlast a heap[a] rfl hget
    simp only [wire, List.map_cons, List.map_nil, isChain, beq_iff_eq]
    rw [hget]
    simp [kindAt, hget, ← hnone]
  | a :: b :: rest, heap, hnd, hlt, hlast, _ => by
    have hnd2 : (b :: rest).Nodup := (List.nodup_cons.1 hnd).2
    have hanot : a ∉ b :: rest := (List.nodup_cons.1 hnd).1
    have ha : a < heap.length := hlt a (by simp)
    have hget : heap[a]? = some heap[a] := List.getElem?_eq_getElem ha
    have ih := wire_isChain (b :: rest) (setNext heap a (some b)) hnd2
      (fun x hx => by rw [setNext_length]; exact hlt x (List.mem_cons_of_mem _ hx))
      (fun last h hl hg => by
        have hmem : last ∈ b :: rest := List.mem_of_getLast?_eq_some hl
        have hne : a ≠ last := fun e => hanot (e ▸ hmem)
        rw [setNext_get_ne heap a last _ hne] at hg
        exact hlast last h (by rw [List.getLast?_cons_cons]; exact hl) hg)
      (by simp)
    have hmap : (b :: rest).map (fun x => (x, kindAt (setNext heap a (some b)) x))
        = (b :: rest).map (fun x => (x, kindAt heap x)) := by
      apply List.map_congr_left
      intro x _
      rw [setNext_kindAt]
    rw [hmap] at ih
    rw [wire]
    have hcons : (a :: b :: rest).map (fun x => (x, kindAt heap x))
        = (a, kindAt heap a) :: (b :: rest).map (fun x => (x, kindAt heap x)) := rfl
    rw [hcons, isChain_cons]
    refine ⟨?_, Or.inr ih⟩
    rw [wire_get_of_not_mem (b :: rest) _ a hanot, setNext_get_self heap a _ _ hget]
    simp [kindAt, hget]

/-! ## Wiring, forwarding and repeated dispatch -/

theorem selfLoop_diverges (m : LogMessage) (w : World) (hm : m.type ≠ .Warning) :
    ∀ fuel, handle selfLoop fuel 0 m w = ⟨.outOfFuel, w, List.replicate fuel 0⟩ := by
  intro fuel
  induction fuel with
  | zero => simp [handle]
  | succ n ih =>
    have hget : selfLoop[0]? = some ⟨.WarningHandler, some 0⟩ := by decide
    rw [handle_decline selfLoop n 0 .WarningHandler (some 0) m w hget
      (by simpa [claimed] using Ne.symm hm)]
    simp [LogHandler.handle, ih, Run.enter, List.replicate_succ]

theorem visited_of_chain (heap : Heap) (c : List (Nat × HandlerKind)) (m : LogMessage)
    (w : World) (fuel : Nat) (hc : isChain heap c = true) :
    ∃ n, n ≤ c.length ∧
      (handle heap (fuel + c.length) (entry c) m w).visited = (c.map Prod.fst).take n := by
  rcases handle_chain_cases heap c m w fuel hc with ⟨_, hr⟩ | ⟨pre, a, k, suf, hsplit, _, _, hr⟩
  · exact ⟨c.length, le_refl _, by rw [hr]; simp⟩
  · refine ⟨pre.length + 1, by rw [hsplit]; simp, ?_⟩
    rw [hr, hsplit]
    simp [List.take_append_eq_append_take, List.take_of_length_le]

/-- C11, as stated, fails: `setNext` accepts the object itself as successor.
After `h.setNext(&h)` on a `WarningHandler` the wiring is a cycle, and the
dispatch of (Error, "x") enters the same handler again and again: with fuel 5,
five times, and for no amount of fuel does it come to an end. -/
theorem setNext_allows_cycle :
    selfLoop = [⟨.WarningHandler, some 0⟩] ∧
    (handle selfLoop 5 0 ⟨.Error, "x"⟩ freshWorld).visited = [0, 0, 0, 0, 0] ∧
    ¬ (handle selfLoop 5 0 ⟨.Error, "x"⟩ freshWorld).visited.Nodup ∧
    (∀ fuel, (handle selfLoop fuel 0 ⟨.Error, "x"⟩ freshWorld).outcome = .outOfFuel) := by
  refine ⟨by decide, by decide, by decide, fun fuel => ?_⟩
  rw [selfLoop_diverges ⟨.Error, "x"⟩ freshWorld (by decide) fuel]

/-- C11, amended: `setNext` checks nothing, but the calls
`a0.setNext(&a1); a1.setNext(&a2); ...` on pairwise different existing
handlers, the last of which has no successor, leave a wiring without a cycle:
the handlers form a chain from `a0` that ends in `nullptr`, and every dispatch
on it comes to an end having entered an initial part of `a0, a1, ...`, no
handler twice. -/
theorem wired_chain_acyclic (heap : Heap) (addrs : List Nat) (m : LogMessage) (w : World)
    (fuel : Nat) (hnd : addrs.Nodup) (hlt : ∀ a ∈ addrs, a < heap.length)
    (hlast : ∀ last h, addrs.getLast? = some last → heap[last]? = some h →
      h.nextHandler_ = none)
    (hne : addrs ≠ []) :
    isChain (wire heap addrs) (addrs.map (fun a => (a, kindAt heap a))) = true ∧
    (handle (wire heap addrs) (fuel + addrs.length) (addrs.headD 0) m w).visited.Nodup ∧
    (∃ n, (handle (wire heap addrs) (fuel + addrs.length) (addrs.headD 0) m w).visited
      = addrs.take n) ∧
    (handle (wire heap addrs) (fuel + addrs.length) (addrs.headD 0) m w).outcome
      ≠ .outOfFuel := by
  have hc := wire_isChain addrs heap hnd hlt hlast hne
  have hfst : (addrs.map (fun a => (a, kindAt heap a))).map Prod.fst = addrs := by
    simp [List.map_map, Function.comp_def]
  have hentry : entry (addrs.map (fun a => (a, kindAt heap a))) = addrs.headD 0 := by
    simp [entry, hfst]
  have hlen : (addrs.map (fun a => (a, kindAt heap a))).length = addrs.length := by simp
  obtain ⟨n, _, hv⟩ := visited_of_chain (wire heap addrs) _ m w fuel hc
  rw [hentry, hlen, hfst] at hv
  refine ⟨hc, ?_, ⟨n, hv⟩, ?_⟩
  · rw [hv]
    exact List.Nodup.sublist (List.take_sublist n addrs) hnd
  · rcases handle_chain_cases (wire heap addrs) _ m w fuel hc with
      ⟨_, hr⟩ | ⟨pre, a, k, suf, _, _, hk, hr⟩
    · rw [hentry, hlen] at hr
      rw [hr]; simp
    · rw [hentry, hlen] at hr
      rw [hr]
      rcases alone_outcome k m w hk with h | h | h | h <;> rw [h] <;> simp

/-- Witness of C11 (amended): the four objects of `main` linked in the order
of `main`; the result is the wiring of `main`. -/
theorem wired_chain_acyclic_witness :
    [2, 1, 0, 3].Nodup ∧ (∀ a ∈ [2, 1, 0, 3], a < (mainObjects "log.txt").length) ∧
    (∀ last h, [2, 1, 0, 3].getLast? = some last → (mainObjects "log.txt")[last]? = some h →
      h.nextHandler_ = none) ∧
    wire (mainObjects "log.txt") [2, 1, 0, 3] = mainWiring "log.txt" ∧
    (isChain (wire (mainObjects "log.txt") [2, 1, 0, 3])
        ([2, 1, 0, 3].map (fun a => (a, kindAt (mainObjects "log.txt") a))) = true ∧
      (handle (wire (mainObjects "log.txt") [2, 1, 0, 3]) (0 + [2, 1, 0, 3].length)
        ([2, 1, 0, 3].headD 0) unknown freshWorld).visited.Nodup ∧
      (∃ n, (handle (wire (mainObjects "log.txt") [2, 1, 0, 3]) (0 + [2, 1, 0, 3].length)
        ([2, 1, 0, 3].headD 0) unknown freshWorld).visited = [2, 1, 0, 3].take n) ∧
      (handle (wire (mainObjects "log.txt") [2, 1, 0, 3]) (0 + [2, 1, 0, 3].length)
        ([2, 1, 0, 3].headD 0) unknown freshWorld).outcome ≠ .outOfFuel) :=
  have hl : ∀ last h, [2, 1, 0, 3].getLast? = some last →
      (mainObjects "log.txt")[last]? = some h → h.nextHandler_ = none := by
    intro last h hl hg
    have h3 : last = 3 := by simpa using hl.symm
    subst h3
    have : h = ⟨.UnknownHandler, none⟩ := by simpa [mainObjects] using hg.symm
    rw [this]
  ⟨by decide, by decide, hl, by decide,
    wired_chain_acyclic (mainObjects "log.txt") [2, 1, 0, 3] unknown freshWorld 0 (by decide)
      (by decide) hl (by decide)⟩

/-- C12 (decline and forward): a handler of any class (the four concrete ones
and the base class) that does not claim the type of the message writes
nothing itself: with a successor, the outcome and the environment of its
`handle` are those of `handle` of the successor, entered right after it; with
no successor it ends with the exception "Unhandled log message" and leaves
the environment as it was. -/
theorem decline_and_forward (heap : Heap) (a : Nat) (k : HandlerKind) (nxt : Option Nat)
    (m : LogMessage) (w : World) (fuel : Nat) (hget : heap[a]? = some ⟨k, nxt⟩)
    (hk : claimed k ≠ some m.type) :
    (∀ q, nxt = some q →
      (handle heap (fuel + 1) a m w).outcome = (handle heap fuel q m w).outcome ∧
      (handle heap (fuel + 1) a m w).world = (handle heap fuel q m w).world ∧
      (handle heap (fuel + 1) a m w).visited = a :: (handle heap fuel q m w).visited) ∧
    (nxt = none →
      (handle heap (fuel + 1) a m w).outcome = .threw unhandledError ∧
      (handle heap (fuel + 1) a m w).world = w ∧
      (handle heap (fuel + 1) a m w).visited = [a]) := by
  rw [handle_decline heap fuel a k nxt m w hget hk]
  constructor
  · intro q hq
    subst hq
    simp [LogHandler.handle, Run.enter]
  · intro hq
    subst hq
    simp [LogHandler.handle, Run.enter]

/-- Witness of C12: the `WarningHandler` of `main` given the `error` message
forwards to the `ErrorHandler`. -/
theorem decline_and_forward_witness :
    (mainWiring "log.txt")[2]? = some ⟨.WarningHandler, some 1⟩ ∧
    claimed .WarningHandler ≠ some error.type ∧
    ((∀ q, some 1 = some q →
      (handle (mainWiring "log.txt") (3 + 1) 2 error freshWorld).outcome
        = (handle (mainWiring "log.txt") 3 q error freshWorld).outcome ∧
      (handle (mainWiring "log.txt") (3 + 1) 2 error freshWorld).world
        = (handle (mainWiring "log.txt") 3 q error freshWorld).world ∧
      (handle (mainWiring "log.txt") (3 + 1) 2 error freshWorld).visited
        = 2 :: (handle (mainWiring "log.txt") 3 q error freshWorld).visited) ∧
    (some 1 = none →
      (handle (mainWiring "log.txt") (3 + 1) 2 error freshWorld).outcome
        = .threw unhandledError ∧
      (handle (mainWiring "log.txt") (3 + 1) 2 error freshWorld).world = freshWorld ∧
      (handle (mainWiring "log.txt") (3 + 1) 2 error freshWorld).visited = [2])) :=
  ⟨by decide, by decide,
    decline_and_forward (mainWiring "log.txt") 2 .WarningHandler (some 1) error freshWorld 3
      (by decide) (by decide)⟩

theorem alone_sinkError_world (k : HandlerKind) (m : LogMessage) (w : World)
    (h : (handle (alone k) 1 0 m w).outcome = .threw sinkError) :
    (handle (alone k) 1 0 m w).world = w := by
  rw [handle_succ (alone k) 0 0 ⟨k, none⟩ m w rfl] at h ⊢
  cases k with
  | LogHandler => rfl
  | FatalErrorHandler =>
    simp only [FatalErrorHandler.handle, LogHandler.handle, Run.enter]; split <;> rfl
  | UnknownHandler =>
    simp only [UnknownHandler.handle, LogHandler.handle, Run.enter]; split <;> rfl
  | WarningHandler =>
    simp only [WarningHandler.handle, LogHandler.handle, Run.enter] at h ⊢
    split at h
    · simp at h
    · rename_i hne; simp [hne]
  | ErrorHandler path =>
    simp only [ErrorHandler.handle, LogHandler.handle, Run.enter] at h ⊢
    split at h
    · rename_i heq
      split at h
      · rename_i hopen; simp [heq, hopen]
      · simp at h
    · rename_i hne; simp [hne]

theorem handle_warning_on_chain (heap : Heap) (pre suf : List (Nat × HandlerKind)) (a : Nat)
    (t : String) (w : World) (fuel : Nat)
    (hc : isChain heap (pre ++ (a, .WarningHandler) :: suf) = true)
    (hpre : ∀ x ∈ pre, claimed x.2 ≠ some .Warning) :
    handle heap (fuel + (pre ++ (a, HandlerKind.WarningHandler) :: suf).length)
        (entry (pre ++ (a, .WarningHandler) :: suf)) ⟨.Warning, t⟩ w =
      ⟨.returned, w.writeCout "Warning: " t, pre.map Prod.fst ++ [a]⟩ := by
  have hlen : fuel + (pre ++ (a, HandlerKind.WarningHandler) :: suf).length
      = fuel + suf.length + pre.length + 1 := by simp; omega
  rw [hlen, handle_first heap ⟨.Warning, t⟩ w a .WarningHandler suf rfl pre (fuel + suf.length)
    hc hpre, handle_succ (alone .WarningHandler) 0 0 ⟨.WarningHandler, none⟩ _ w rfl]
  simp [WarningHandler.handle, Run.enter]

theorem handleOn_eq :
    ∀ (fuel : Nat) (heap : Heap) (p : Nat) (m : LogMessage) (w : World),
      handleOn fuel heap p m w = (handle heap fuel p m w, heap) := by
  intro fuel
  induction fuel with
  | zero => intro heap p m w; simp [handleOn, handle]
  | succ n ih =>
    intro heap p m w
    have hbase : ∀ nxt : Option Nat,
        LogHandler.handleOn (handleOn n) heap nxt m w
          = (LogHandler.handle (handle heap n) nxt m w, heap) := by
      intro nxt
      cases nxt with
      | none => rfl
      | some q => simp only [LogHandler.handleOn, LogHandler.handle, ih]
    rw [handleOn, handle]
    cases hget : heap[p]? with
    | none => rfl
    | some h =>
      obtain ⟨k, nxt⟩ := h
      cases k <;>
        simp only [FatalErrorHandler.handleOn, FatalErrorHandler.handle, ErrorHandler.handleOn,
          ErrorHandler.handle, WarningHandler.handleOn, WarningHandler.handle,
          UnknownHandler.handleOn, UnknownHandler.handle, hbase] <;>
        split_ifs <;> rfl

/-- C13: for every wiring of the objects (a cyclic one included), every handler
and every message, a call of `handle`, however it ends, leaves every handler
object as it was, successor and file path, and its run is the one `handle`
gives when the objects are merely read. So on every chain that has a
`WarningHandler`, when the dispatch of (Error, x) ends with the exception
"Unable to open log file", the dispatch of (Warning, y) that follows on the
same objects returns normally and appends "Warning: " ++ y ++ newline to the
console as it was before both calls; no file is changed. -/
theorem dispatch_leaves_chain (heap : Heap) (f p : Nat) (m : LogMessage) (v : World)
    (pre suf : List (Nat × HandlerKind)) (a : Nat) (x y : String) (w : World)
    (fuel fuel2 : Nat) :
    (handleOn f heap p m v).2 = heap ∧
    (handleOn f heap p m v).1 = handle heap f p m v ∧
    (Call.run f (.handle p m) ⟨heap, v⟩).2.heap = heap ∧
    (isChain heap (pre ++ (a, .WarningHandler) :: suf) = true →
      (∀ z ∈ pre, claimed z.2 ≠ some .Warning) →
      (Call.run (fuel + (pre ++ (a, HandlerKind.WarningHandler) :: suf).length)
        (.handle (entry (pre ++ (a, .WarningHandler) :: suf)) ⟨.Error, x⟩) ⟨heap, w⟩).1
          = .threw sinkError →
      (Call.run (fuel2 + (pre ++ (a, HandlerKind.WarningHandler) :: suf).length)
        (.handle (entry (pre ++ (a, .WarningHandler) :: suf)) ⟨.Warning, y⟩)
        (Call.run (fuel + (pre ++ (a, HandlerKind.WarningHandler) :: suf).length)
          (.handle (entry (pre ++ (a, .WarningHandler) :: suf)) ⟨.Error, x⟩) ⟨heap, w⟩).2).1
        = .returned ∧
      (Call.run (fuel2 + (pre ++ (a, HandlerKind.WarningHandler) :: suf).length)
        (.handle (entry (pre ++ (a, .WarningHandler) :: suf)) ⟨.Warning, y⟩)
        (Call.run (fuel + (pre ++ (a, HandlerKind.WarningHandler) :: suf).length)
          (.handle (entry (pre ++ (a, .WarningHandler) :: suf)) ⟨.Error, x⟩)
          ⟨heap, w⟩).2).2.world.cout
        = w.cout ++ ("Warning: " ++ y ++ "\n") ∧
      (Call.run (fuel2 + (pre ++ (a, HandlerKind.WarningHandler) :: suf).length)
        (.handle (entry (pre ++ (a, .WarningHandler) :: suf)) ⟨.Warning, y⟩)
        (Call.run (fuel + (pre ++ (a, HandlerKind.WarningHandler) :: suf).length)
          (.handle (entry (pre ++ (a, .WarningHandler) :: suf)) ⟨.Error, x⟩)
          ⟨heap, w⟩).2).2.world.files
        = w.files ∧
      (Call.run (fuel2 + (pre ++ (a, HandlerKind.WarningHandler) :: suf).length)
        (.handle (entry (pre ++ (a, .WarningHandler) :: suf)) ⟨.Warning, y⟩)
        (Call.run (fuel + (pre ++ (a, HandlerKind.WarningHandler) :: suf).length)
          (.handle (entry (pre ++ (a, .WarningHandler) :: suf)) ⟨.Error, x⟩)
          ⟨heap, w⟩).2).2.heap
        = heap) := by
  refine ⟨by rw [handleOn_eq], by rw [handleOn_eq], by simp only [Call.run, handleOn_eq], ?_⟩
  intro hc hpre hfail
  simp only [Call.run, handleOn_eq] at hfail ⊢
  have hw : (handle heap (fuel + (pre ++ (a, HandlerKind.WarningHandler) :: suf).length)
      (entry (pre ++ (a, .WarningHandler) :: suf)) ⟨.Error, x⟩ w).world = w := by
    rcases handle_chain_cases heap _ ⟨.Error, x⟩ w fuel hc with
      ⟨_, hr⟩ | ⟨pre2, a2, k2, suf2, _, _, _, hr⟩
    · rw [hr]
    · rw [hr] at hfail ⊢
      exact alone_sinkError_world k2 _ w hfail
  simp only [hw, handle_warning_on_chain heap pre suf a y w fuel2 hc hpre,
    World.writeCout, String.append_assoc, and_self]

/-- Witness of C13: the chain of `main` when no file can be opened; the frame
is taken at the wiring of one `WarningHandler` that is its own successor. -/
theorem dispatch_leaves_chain_witness :
    (handleOn 7 selfLoop 0 error freshWorld).2 = selfLoop ∧
    (handleOn 7 selfLoop 0 error freshWorld).1 = handle selfLoop 7 0 error freshWorld ∧
    (Call.run 7 (.handle 0 error) ⟨selfLoop, freshWorld⟩).2.heap = selfLoop ∧
    isChain (mainWiring "log.txt") ([] ++ (2, .WarningHandler) ::
      [(1, .ErrorHandler "log.txt"), (0, .FatalErrorHandler), (3, .UnknownHandler)]) = true ∧
    (Call.run 4 (.handle 2 ⟨.Error, "x"⟩) ⟨mainWiring "log.txt", lockedWorld⟩).1
      = .threw sinkError ∧
    ((Call.run 4 (.handle 2 ⟨.Warning, "y"⟩)
      (Call.run 4 (.handle 2 ⟨.Error, "x"⟩) ⟨mainWiring "log.txt", lockedWorld⟩).2).1
      = .returned ∧
    (Call.run 4 (.handle 2 ⟨.Warning, "y"⟩)
      (Call.run 4 (.handle 2 ⟨.Error, "x"⟩) ⟨mainWiring "log.txt", lockedWorld⟩).2).2.world.cout
      = lockedWorld.cout ++ ("Warning: " ++ "y" ++ "\n") ∧
    (Call.run 4 (.handle 2 ⟨.Warning, "y"⟩)
      (Call.run 4 (.handle 2 ⟨.Error, "x"⟩) ⟨mainWiring "log.txt", lockedWorld⟩).2).2.world.files
      = lockedWorld.files ∧
    (Call.run 4 (.handle 2 ⟨.Warning, "y"⟩)
      (Call.run 4 (.handle 2 ⟨.Error, "x"⟩) ⟨mainWiring "log.txt", lockedWorld⟩).2).2.heap
      = mainWiring "log.txt") :=
  ⟨(dispatch_leaves_chain selfLoop 7 0 error freshWorld [] [] 0 "" "" freshWorld 0 0).1,
    (dispatch_leaves_chain selfLoop 7 0 error freshWorld [] [] 0 "" "" freshWorld 0 0).2.1,
    (dispatch_leaves_chain selfLoop 7 0 error freshWorld [] [] 0 "" "" freshWorld 0 0).2.2.1,
    by decide, by decide,
    (dispatch_leaves_chain (mainWiring "log.txt") 0 0 error freshWorld []
      [(1, .ErrorHandler "log.txt"), (0, .FatalErrorHandler), (3, .UnknownHandler)] 2 "x" "y"
      lockedWorld 0 0).2.2.2 (by decide) (by decide) (by decide)⟩

/-- C14 (no memoization): on every chain whose first handler claiming `Warning`
is a `WarningHandler`, two dispatches of the same (Warning, t) in a row both
return normally and the console after the second is the console before the
first followed by the line "Warning: " ++ t ++ newline twice; the files are as
before. -/
theorem warning_twice (heap : Heap) (pre suf : List (Nat × HandlerKind)) (a : Nat)
    (t : String) (w : World) (fuel fuel2 : Nat)
    (hc : isChain heap (pre ++ (a, .WarningHandler) :: suf) = true)
    (hpre : ∀ x ∈ pre, claimed x.2 ≠ some .Warning) :
    (handle heap (fuel + (pre ++ (a, HandlerKind.WarningHandler) :: suf).length)
      (entry (pre ++ (a, .WarningHandler) :: suf)) ⟨.Warning, t⟩ w).outcome = .returned ∧
    (handle heap (fuel + (pre ++ (a, HandlerKind.WarningHandler) :: suf).length)
      (entry (pre ++ (a, .WarningHandler) :: suf)) ⟨.Warning, t⟩ w).world.cout
      = w.cout ++ ("Warning: " ++ t ++ "\n") ∧
    (handle heap (fuel2 + (pre ++ (a, HandlerKind.WarningHandler) :: suf).length)
      (entry (pre ++ (a, .WarningHandler) :: suf)) ⟨.Warning, t⟩
      (handle heap (fuel + (pre ++ (a, HandlerKind.WarningHandler) :: suf).length)
        (entry (pre ++ (a, .WarningHandler) :: suf)) ⟨.Warning, t⟩ w).world).outcome
      = .returned ∧
    (handle heap (fuel2 + (pre ++ (a, HandlerKind.WarningHandler) :: suf).length)
      (entry (pre ++ (a, .WarningHandler) :: suf)) ⟨.Warning, t⟩
      (handle heap (fuel + (pre ++ (a, HandlerKind.WarningHandler) :: suf).length)
        (entry (pre ++ (a, .WarningHandler) :: suf)) ⟨.Warning, t⟩ w).world).world.cout
      = w.cout ++ ("Warning: " ++ t ++ "\n") ++ ("Warning: " ++ t ++ "\n") ∧
    (handle heap (fuel2 + (pre ++ (a, HandlerKind.WarningHandler) :: suf).length)
      (entry (pre ++ (a, .WarningHandler) :: suf)) ⟨.Warning, t⟩
      (handle heap (fuel + (pre ++ (a, HandlerKind.WarningHandler) :: suf).length)
        (entry (pre ++ (a, .WarningHandler) :: suf)) ⟨.Warning, t⟩ w).world).world.files
      = w.files := by
  simp only [handle_warning_on_chain heap pre suf a t _ _ hc hpre, World.writeCout,
    String.append_assoc, and_self]

/-- Witness of C14: the `warning` message of `main` twice on the chain of `main`. -/
theorem warning_twice_witness :
    isChain (mainWiring "log.txt") ([] ++ (2, .WarningHandler) ::
      [(1, .ErrorHandler "log.txt"), (0, .FatalErrorHandler), (3, .UnknownHandler)]) = true ∧
    (handle (mainWiring "log.txt") 4 2 ⟨.Warning, "Low disk space."⟩ freshWorld).outcome
      = .returned ∧
    (handle (mainWiring "log.txt") 4 2 ⟨.Warning, "Low disk space."⟩ freshWorld).world.cout
      = freshWorld.cout ++ ("Warning: " ++ "Low disk space." ++ "\n") ∧
    (handle (mainWiring "log.txt") 4 2 ⟨.Warning, "Low disk space."⟩
      (handle (mainWiring "log.txt") 4 2 ⟨.Warning, "Low disk space."⟩
        freshWorld).world).outcome = .returned ∧
    (handle (mainWiring "log.txt") 4 2 ⟨.Warning, "Low disk space."⟩
      (handle (mainWiring "log.txt") 4 2 ⟨.Warning, "Low disk space."⟩
        freshWorld).world).world.cout
      = freshWorld.cout ++ ("Warning: " ++ "Low disk space." ++ "\n") ++
        ("Warning: " ++ "Low disk space." ++ "\n") ∧
    (handle (mainWiring "log.txt") 4 2 ⟨.Warning, "Low disk space."⟩
      (handle (mainWiring "log.txt") 4 2 ⟨.Warning, "Low disk space."⟩
        freshWorld).world).world.files = freshWorld.files :=
  ⟨by decide,
    warning_twice (mainWiring "log.txt") []
      [(1, .ErrorHandler "log.txt"), (0, .FatalErrorHandler), (3, .UnknownHandler)] 2
      "Low disk space." freshWorld 0 0 (by decide) (by decide)⟩

/-- C15 (termination, bounded by the chain length): on every chain of n
handlers that ends in `nullptr`, with fuel n or more every dispatch comes to
an end, in a normal return or in one of the four exceptions, and the result is
the same for every such amount of fuel; the handlers entered are an initial
part of the chain, so at most n of them, none twice. -/
theorem dispatch_terminates (heap : Heap) (c : List (Nat × HandlerKind)) (m : LogMessage)
    (w : World) (fuel : Nat) (hc : isChain heap c = true) :
    ((handle heap (fuel + c.length) (entry c) m w).outcome = .returned ∨
      (handle heap (fuel + c.length) (entry c) m w).outcome = .threw unhandledError ∨
      (handle heap (fuel + c.length) (entry c) m w).outcome = .threw sinkError ∨
      (handle heap (fuel + c.length) (entry c) m w).outcome = .threw (fatalError m.message) ∨
      (handle heap (fuel + c.length) (entry c) m w).outcome
        = .threw (unknownError m.message)) ∧
    (handle heap (fuel + c.length) (entry c) m w).visited.length ≤ c.length ∧
    (handle heap (fuel + c.length) (entry c) m w).visited.Nodup ∧
    (handle heap (fuel + c.length) (entry c) m w).visited
      = (c.map Prod.fst).take (handle heap (fuel + c.length) (entry c) m w).visited.length ∧
    handle heap (fuel + c.length) (entry c) m w = handle heap c.length (entry c) m w := by
  obtain ⟨n, hn, hv⟩ := visited_of_chain heap c m w fuel hc
  have hnd := isChain_nodup heap c hc
  have hlen : (handle heap (fuel + c.length) (entry c) m w).visited.length = n := by
    rw [hv, List.length_take, List.length_map]; omega
  refine ⟨?_, by omega, ?_, by rw [hlen]; exact hv, ?_⟩
  · rcases handle_chain_cases heap c m w fuel hc with ⟨_, hr⟩ | ⟨pre, a, k, suf, _, _, hk, hr⟩
    · rw [hr]; simp
    · rw [hr]
      rcases alone_outcome k m w hk with h | h | h | h <;> simp [h]
  · rw [hv]
    exact List.Nodup.sublist (List.take_sublist n _) hnd
  · rcases chain_split m.type c with hno | ⟨pre, a, k, suf, hsplit, hpre, hk⟩
    · have h1 := handle_exhaust heap m w c fuel hc hno
      have h2 := handle_exhaust heap m w c 0 hc hno
      rw [Nat.zero_add] at h2
      rw [h1, h2]
    · subst hsplit
      have hl1 : fuel + (pre ++ (a, k) :: suf).length = fuel + suf.length + pre.length + 1 := by
        simp; omega
      have hl2 : (pre ++ (a, k) :: suf).length = suf.length + pre.length + 1 := by
        simp; omega
      rw [hl1, hl2, handle_first heap m w a k suf hk pre (fuel + suf.length) hc hpre,
        handle_first heap m w a k suf hk pre suf.length hc hpre]

/-- Witness of C15: the chain of `main` and its `unknown` message, which walks
the whole chain. -/
theorem dispatch_terminates_witness :
    isChain (mainWiring "log.txt") (mainChain "log.txt") = true ∧
    (handle (mainWiring "log.txt") (0 + (mainChain "log.txt").length)
      (entry (mainChain "log.txt")) unknown freshWorld).visited = [2, 1, 0, 3] ∧
    (((handle (mainWiring "log.txt") (0 + (mainChain "log.txt").length)
        (entry (mainChain "log.txt")) unknown freshWorld).outcome = .returned ∨
      (handle (mainWiring "log.txt") (0 + (mainChain "log.txt").length)
        (entry (mainChain "log.txt")) unknown freshWorld).outcome = .threw unhandledError ∨
      (handle (mainWiring "log.txt") (0 + (mainChain "log.txt").length)
        (entry (mainChain "log.txt")) unknown freshWorld).outcome = .threw sinkError ∨
      (handle (mainWiring "log.txt") (0 + (mainChain "log.txt").length)
        (entry (mainChain "log.txt")) unknown freshWorld).outcome
          = .threw (fatalError unknown.message) ∨
      (handle (mainWiring "log.txt") (0 + (mainChain "log.txt").length)
        (entry (mainChain "log.txt")) unknown freshWorld).outcome
          = .threw (unknownError unknown.message)) ∧
    (handle (mainWiring "log.txt") (0 + (mainChain "log.txt").length)
      (entry (mainChain "log.txt")) unknown freshWorld).visited.length
        ≤ (mainChain "log.txt").length ∧
    (handle (mainWiring "log.txt") (0 + (mainChain "log.txt").length)
      (entry (mainChain "log.txt")) unknown freshWorld).visited.Nodup ∧
    (handle (mainWiring "log.txt") (0 + (mainChain "log.txt").length)
      (entry (mainChain "log.txt")) unknown freshWorld).visited
      = ((mainChain "log.txt").map Prod.fst).take
          (handle (mainWiring "log.txt") (0 + (mainChain "log.txt").length)
            (entry (mainChain "log.txt")) unknown freshWorld).visited.length ∧
    handle (mainWiring "log.txt") (0 + (mainChain "log.txt").length)
        (entry (mainChain "log.txt")) unknown freshWorld
      = handle (mainWiring "log.txt") (mainChain "log.txt").length
        (entry (mainChain "log.txt")) unknown freshWorld) :=
  ⟨by decide, by decide,
    dispatch_terminates (mainWiring "log.txt") (mainChain "log.txt") unknown freshWorld 0
      (by decide)⟩

/-- C16, as stated, fails: that `log.txt` can be opened for append does not
make the line arrive. On a full device `main` returns 0 with the console line
and the two lines on the error stream, and `log.txt` holds what it held,
without the line "Error: Failed to open file.". -/
theorem main_loses_error_line_when_write_fails :
    fullDiskWorld.openable "log.txt" = true ∧
    (main 4 fullDiskWorld).exit = some 0 ∧
    (main 4 fullDiskWorld).world.cout = "Warning: Low disk space.\n" ∧
    (main 4 fullDiskWorld).world.cerr =
      "Exception caught: Fatal error: Memory corruption detected.\n" ++
      "Exception caught: Unknown log message: Unrecognized format.\n" ∧
    (main 4 fullDiskWorld).world.files "log.txt" = some "boot\n" ∧
    (main 4 fullDiskWorld).world.files "log.txt"
      ≠ some ("boot\n" ++ "Error: Failed to open file.\n") := by
  decide

/-- C16, amended (the driver with a log file that can be opened and written):
`main` wires the chain Warning, Error, FatalError, Unknown; when `log.txt` can
be opened for append and takes the write, it returns 0, the console gains the line "Warning: Low disk space.", `log.txt`
gains the line "Error: Failed to open file." after its old content, no other
file changes, and the error stream gains the lines "Exception caught: Fatal
error: Memory corruption detected." and "Exception caught: Unknown log
message: Unrecognized format.", in this order. -/
theorem main_run_writable (fuel : Nat) (w : World) (hopen : w.openable "log.txt" = true)
    (hwrite : w.writable "log.txt" = true) :
    isChain (mainWiring "log.txt") (mainChain "log.txt") = true ∧
    mainChain "log.txt" = [(warningHandler, .WarningHandler),
      (errorHandler, .ErrorHandler "log.txt"), (fatalHandler, .FatalErrorHandler),
      (unknownHandler, .UnknownHandler)] ∧
    (main (fuel + 4) w).exit = some 0 ∧
    (main (fuel + 4) w).world.cout = w.cout ++ "Warning: Low disk space.\n" ∧
    (main (fuel + 4) w).world.files "log.txt"
      = some ((w.files "log.txt").getD "" ++ "Error: Failed to open file.\n") ∧
    (∀ q, q ≠ "log.txt" → (main (fuel + 4) w).world.files q = w.files q) ∧
    (main (fuel + 4) w).world.cerr = w.cerr ++
      ("Exception caught: Fatal error: Memory corruption detected.\n" ++
       "Exception caught: Unknown log message: Unrecognized format.\n") ∧
    (main (fuel + 4) w).submitted = [warning, error, fatal, unknown] := by
  have e1 : "Warning: " ++ ("Low disk space." ++ "\n") = "Warning: Low disk space.\n" := by
    decide
  have e2 : "Error: " ++ ("Failed to open file." ++ "\n") = "Error: Failed to open file.\n" := by
    decide
  have e3 : "Exception caught: " ++ ((fatalError "Memory corruption detected.").what ++ ("\n" ++
      ("Exception caught: " ++ ((unknownError "Unrecognized format.").what ++ "\n"))))
      = "Exception caught: Fatal error: Memory corruption detected.\n" ++
        "Exception caught: Unknown log message: Unrecognized format.\n" := by
    decide
  refine ⟨mainWiring_isChain "log.txt", rfl, ?_, ?_, ?_, ?_, ?_, ?_⟩
  · simp [main, tryBody, catchException, warning, error, fatal, unknown, main_handle_warning,
      main_handle_error, main_handle_fatal, main_handle_unknown, World.writeCout,
      World.appendFile, hopen]
  · simp [main, tryBody, catchException, warning, error, fatal, unknown, main_handle_warning,
      main_handle_error, main_handle_fatal, main_handle_unknown, World.writeCout,
      World.appendFile, World.writeCerr, hopen, String.append_assoc, e1]
  · simp [main, tryBody, catchException, warning, error, fatal, unknown, main_handle_warning,
      main_handle_error, main_handle_fatal, main_handle_unknown, World.writeCout,
      World.appendFile, World.writeCerr, hopen, hwrite, String.append_assoc, e2]
  · intro q hq
    simp [main, tryBody, catchException, warning, error, fatal, unknown, main_handle_warning,
      main_handle_error, main_handle_fatal, main_handle_unknown, World.writeCout,
      World.appendFile, World.writeCerr, hopen, hq]
  · simp only [main, tryBody, catchException, warning, error, fatal, unknown,
      main_handle_warning, main_handle_error, main_handle_fatal, main_handle_unknown,
      World.writeCout, World.appendFile, World.writeCerr, hopen, String.append_assoc, if_true,
      e3]
  · simp [main, tryBody, catchException, warning, error, fatal, unknown, main_handle_warning,
      main_handle_error, main_handle_fatal, main_handle_unknown, World.writeCout,
      World.appendFile, hopen]

/-- Witness of C16 (amended): `main` in a fresh environment. -/
theorem main_run_writable_witness :
    freshWorld.openable "log.txt" = true ∧
    freshWorld.writable "log.txt" = true ∧
    isChain (mainWiring "log.txt") (mainChain "log.txt") = true ∧
    mainChain "log.txt" = [(warningHandler, .WarningHandler),
      (errorHandler, .ErrorHandler "log.txt"), (fatalHandler, .FatalErrorHandler),
      (unknownHandler, .UnknownHandler)] ∧
    (main (0 + 4) freshWorld).exit = some 0 ∧
    (main (0 + 4) freshWorld).world.cout = freshWorld.cout ++ "Warning: Low disk space.\n" ∧
    (main (0 + 4) freshWorld).world.files "log.txt"
      = some ((freshWorld.files "log.txt").getD "" ++ "Error: Failed to open file.\n") ∧
    (∀ q, q ≠ "log.txt" → (main (0 + 4) freshWorld).world.files q = freshWorld.files q) ∧
    (main (0 + 4) freshWorld).world.cerr = freshWorld.cerr ++
      ("Exception caught: Fatal error: Memory corruption detected.\n" ++
       "Exception caught: Unknown log message: Unrecognized format.\n") ∧
    (main (0 + 4) freshWorld).submitted = [warning, error, fatal, unknown] :=
  ⟨by decide, by decide, main_run_writable 0 freshWorld (by decide) (by decide)⟩

/-! ## Order of the handlers -/

theorem firstClaimant_split (t : MsgType) (k : HandlerKind) (suf : List HandlerKind)
    (hk : claimed k = some t) :
    ∀ pre : List HandlerKind, (∀ x ∈ pre, claimed x ≠ some t) →
      firstClaimant (pre ++ k :: suf) t = some k := by
  intro pre
  induction pre with
  | nil => intro _; simp [firstClaimant, hk]
  | cons x rest ih =>
    intro hpre
    have hx : claimed x ≠ some t := hpre x (List.mem_cons_self _ _)
    have := ih (fun y hy => hpre y (List.mem_cons_of_mem _ hy))
    have hxb : (claimed x == some t) = false := by simpa using hx
    simp only [firstClaimant] at this ⊢
    rw [List.cons_append, List.find?_cons, hxb]
    exact this

theorem firstClaimant_none (t : MsgType) :
    ∀ ks : List HandlerKind, (∀ x ∈ ks, claimed x ≠ some t) → firstClaimant ks t = none := by
  intro ks hno
  simp only [firstClaimant, List.find?_eq_none]
  intro x hx
  simpa using hno x hx

theorem handle_firstClaimant (heap : Heap) (c : List (Nat × HandlerKind)) (m : LogMessage)
    (w : World) (fuel : Nat) (hc : isChain heap c = true) :
    ((handle heap (fuel + c.length) (entry c) m w).outcome,
      (handle heap (fuel + c.length) (entry c) m w).world) =
      match firstClaimant (c.map Prod.snd) m.type with
      | some k => ((handle (alone k) 1 0 m w).outcome, (handle (alone k) 1 0 m w).world)
      | none => (.threw unhandledError, w) := by
  rcases handle_chain_cases heap c m w fuel hc with
    ⟨hno, hr⟩ | ⟨pre, a, k, suf, hsplit, hpre, hk, hr⟩
  · have hnone : firstClaimant (c.map Prod.snd) m.type = none := by
      apply firstClaimant_none
      intro x hx
      obtain ⟨y, hy, hyx⟩ := List.mem_map.1 hx
      rw [← hyx]; exact hno y hy
    rw [hnone, hr]
  · have hsome : firstClaimant (c.map Prod.snd) m.type = some k := by
      rw [hsplit, List.map_append, List.map_cons]
      apply firstClaimant_split m.type k _ hk
      intro x hx
      obtain ⟨y, hy, hyx⟩ := List.mem_map.1 hx
      rw [← hyx]; exact hpre y hy
    rw [hsome, hr]

theorem find?_eq_head?_filter (p : HandlerKind → Bool) :
    ∀ l : List HandlerKind, l.find? p = (l.filter p).head? := by
  intro l
  induction l with
  | nil => rfl
  | cons x rest ih =>
    cases hx : p x
    · rw [List.find?_cons, List.filter_cons, hx]; simp
    · rw [List.find?_cons, List.filter_cons, hx]; simp

theorem firstClaimant_perm (t : MsgType) (l l2 : List HandlerKind) (hperm : l2.Perm l)
    (hdis : l.Pairwise (fun k k2 => claimed k ≠ claimed k2)) :
    firstClaimant l2 t = firstClaimant l t := by
  simp only [firstClaimant, find?_eq_head?_filter]
  have hp := List.Perm.filter (fun k => claimed k == some t) hperm
  have hpw := List.Pairwise.sublist (List.filter_sublist (p := fun k => claimed k == some t) l)
    hdis
  cases hf : l.filter (fun k => claimed k == some t) with
  | nil =>
    rw [hf] at hp
    rw [List.perm_nil.1 hp]
  | cons x rest =>
    cases rest with
    | nil =>
      rw [hf] at hp
      rw [List.perm_singleton.1 hp]
    | cons y rest2 =>
      exfalso
      rw [hf] at hpw
      have hxy : claimed x ≠ claimed y := (List.pairwise_cons.1 hpw).1 y (by simp)
      have hx : x ∈ l.filter (fun k => claimed k == some t) := by rw [hf]; simp
      have hy : y ∈ l.filter (fun k => claimed k == some t) := by rw [hf]; simp
      have hx2 : claimed x = some t := by simpa using (List.mem_filter.1 hx).2
      have hy2 : claimed y = some t := by simpa using (List.mem_filter.1 hy).2
      exact hxy (hx2.trans hy2.symm)

/-- C17: when the handlers of a chain claim pairwise different types, a
dispatch on any chain made of the same handler classes in another order ends
in the same way (normal return or the same exception) and leaves the same
environment (console, error stream, files) as on the first chain. -/
theorem order_irrelevant_when_disjoint (heap heap2 : Heap) (c c2 : List (Nat × HandlerKind))
    (m : LogMessage) (w : World) (fuel fuel2 : Nat)
    (hc : isChain heap c = true) (hc2 : isChain heap2 c2 = true)
    (hperm : (c2.map Prod.snd).Perm (c.map Prod.snd))
    (hdis : (c.map Prod.snd).Pairwise (fun k k2 => claimed k ≠ claimed k2)) :
    (handle heap2 (fuel2 + c2.length) (entry c2) m w).outcome
      = (handle heap (fuel + c.length) (entry c) m w).outcome ∧
    (handle heap2 (fuel2 + c2.length) (entry c2) m w).world
      = (handle heap (fuel + c.length) (entry c) m w).world := by
  have h1 := handle_firstClaimant heap c m w fuel hc
  have h2 := handle_firstClaimant heap2 c2 m w fuel2 hc2
  rw [firstClaimant_perm m.type _ _ hperm hdis, ← h1] at h2
  exact ⟨congrArg Prod.fst h2, congrArg Prod.snd h2⟩

/-- Witness of C17: the chain of `main` and the same four classes wired in the
opposite order, given the `error` message. -/
theorem order_irrelevant_when_disjoint_witness :
    isChain (mainWiring "log.txt") (mainChain "log.txt") = true ∧
    isChain reversedWiring [(0, .UnknownHandler), (1, .FatalErrorHandler),
      (2, .ErrorHandler "log.txt"), (3, .WarningHandler)] = true ∧
    ([HandlerKind.UnknownHandler, .FatalErrorHandler, .ErrorHandler "log.txt",
      .WarningHandler].Perm ((mainChain "log.txt").map Prod.snd)) ∧
    ((mainChain "log.txt").map Prod.snd).Pairwise (fun k k2 => claimed k ≠ claimed k2) ∧
    (handle reversedWiring 4 0 error freshWorld).outcome
      = (handle (mainWiring "log.txt") 4 2 error freshWorld).outcome ∧
    (handle reversedWiring 4 0 error freshWorld).world
      = (handle (mainWiring "log.txt") 4 2 error freshWorld).world :=
  ⟨by decide, by decide, by decide, by decide,
    order_irrelevant_when_disjoint (mainWiring "log.txt") reversedWiring (mainChain "log.txt")
      [(0, .UnknownHandler), (1, .FatalErrorHandler), (2, .ErrorHandler "log.txt"),
        (3, .WarningHandler)] error freshWorld 0 0 (by decide) (by decide)
      (by decide) (by decide)⟩

end ChainOfResponsibility

namespace ObserverPattern

/-! ## The algorithm `std::remove` followed by `erase` -/

theorem stdFind_split (value : ObserverPtr) :
    ∀ xs : List ObserverPtr,
      (stdFind value xs = xs.length ∧ value ∉ xs) ∨
      ∃ pre post, xs = pre ++ value :: post ∧ value ∉ pre ∧ stdFind value xs = pre.length := by
  intro xs
  induction xs with
  | nil => left; simp [stdFind]
  | cons x rest ih =>
    by_cases hx : x = value
    · right
      exact ⟨[], rest, by rw [hx]; rfl, by simp, by simp [stdFind, hx]⟩
    · rcases ih with ⟨hlen, hnot⟩ | ⟨pre, post, hsplit, hnot, hlen⟩
      · left
        refine ⟨by simp [stdFind, hx, hlen], ?_⟩
        intro hmem
        rcases List.mem_cons.1 hmem with h | h
        · exact hx h.symm
        · exact hnot h
      · right
        refine ⟨x :: pre, post, by rw [hsplit]; rfl, ?_, by simp [stdFind, hx, hlen]⟩
        intro hmem
        rcases List.mem_cons.1 hmem with h | h
        · exact hx h.symm
        · exact hnot h

theorem removeLoop_spec (value : ObserverPtr) :
    ∀ (todo : List ObserverPtr) (n : Nat) (done mid : List ObserverPtr) (i : Nat),
      todo.length ≤ n → mid ≠ [] → i + 1 = done.length + mid.length →
      ((removeLoop value n (done ++ mid ++ todo) done.length i).1.take
          (removeLoop value n (done ++ mid ++ todo) done.length i).2
        = done ++ todo.filter (fun x => x != value)) ∧
      (removeLoop value n (done ++ mid ++ todo) done.length i).2 ≤
        (removeLoop value n (done ++ mid ++ todo) done.length i).1.length := by
  intro todo
  induction todo with
  | nil =>
    intro n done mid i _ _ hi
    have hnone : (done ++ mid ++ [])[i + 1]? = none := by
      apply List.getElem?_eq_none
      simp; omega
    cases n with
    | zero => simp [removeLoop]
    | succ n => simp only [removeLoop, hnone]; simp
  | cons x rest ih =>
    intro n done mid i hn hmid hi
    cases n with
    | zero => simp at hn
    | succ n =>
      have hn2 : rest.length ≤ n := by simpa using hn
      have hget : (done ++ mid ++ x :: rest)[i + 1]? = some x := by
        rw [hi, ← List.length_append, List.getElem?_append_right (le_refl _)]
        simp
      simp only [removeLoop, hget]
      by_cases hx : x = value
      · have hb : (!(x == value)) = false := by simp [hx]
        rw [hb]
        have hsplit : done ++ mid ++ x :: rest = done ++ (mid ++ [x]) ++ rest := by simp
        have := ih n done (mid ++ [x]) (i + 1) hn2 (by simp) (by simp; omega)
        rw [← hsplit] at this
        simpa [hx] using this
      · have hb : (!(x == value)) = true := by simp [hx]
        rw [hb]
        obtain ⟨g, gap, hg⟩ := List.exists_cons_of_ne_nil hmid
        subst hg
        have hset : (done ++ g :: gap ++ x :: rest).set done.length x
            = (done ++ [x]) ++ (gap ++ [x]) ++ rest := by
          simp [List.set_append]
        have := ih n (done ++ [x]) (gap ++ [x]) (i + 1) hn2 (by simp) (by simp at hi ⊢; omega)
        simp only [if_true, hset]
        have hl : (done ++ [x]).length = done.length + 1 := by simp
        rw [hl] at this
        simpa [hx] using this

theorem removeObserver_observers (self : Observable) (o : ObserverPtr) :
    (self.removeObserver o).observers = self.observers.filter (fun x => x != o) := by
  obtain ⟨xs⟩ := self
  simp only [Observable.removeObserver, stdRemove, eraseRange]
  rcases stdFind_split o xs with ⟨hlen, hnot⟩ | ⟨pre, post, hsplit, hnot, hlen⟩
  · have hfilter : xs.filter (fun x => x != o) = xs := by
      apply List.filter_eq_self.2
      intro a ha
      have : a ≠ o := fun h => hnot (h ▸ ha)
      simpa using this
    simp [hlen, hfilter]
  · have hne : (stdFind o xs != xs.length) = true := by
      rw [hlen, hsplit]; simp
    have hxs : xs = pre ++ [o] ++ post := by rw [hsplit]; simp
    have hspec := removeLoop_spec o post xs.length pre [o] pre.length
      (by rw [hsplit]; simp; omega) (by simp) (by simp)
    rw [← hxs] at hspec
    have hfilter : xs.filter (fun x => x != o) = pre ++ post.filter (fun x => x != o) := by
      have hpre : pre.filter (fun x => x != o) = pre := by
        apply List.filter_eq_self.2
        intro a ha
        have : a ≠ o := fun h => hnot (h ▸ ha)
        simpa using this
      rw [hsplit, List.filter_append, hpre]
      simp
    rw [hlen] at hne
    simp only [hlen, hne, if_true, List.drop_length, List.append_nil]
    rw [hspec.1, hfilter]

/-- C18: `removeObserver(o)` leaves the observers different from `o`, in their
order: the list afterwards is the list before filtered by (x != o). So no
occurrence of `o` is left, nothing changes when `o` is not registered, and a
second `removeObserver(o)` changes nothing more. -/
theorem removeObserver_filter (self : Observable) (o : ObserverPtr) :
    (self.removeObserver o).observers = self.observers.filter (fun x => x != o) ∧
    o ∉ (self.removeObserver o).observers ∧
    (o ∉ self.observers → self.removeObserver o = self) ∧
    (self.removeObserver o).removeObserver o = self.removeObserver o := by
  have h1 := removeObserver_observers self o
  have h2 := removeObserver_observers (self.removeObserver o) o
  refine ⟨h1, ?_, ?_, ?_⟩
  · rw [h1]; simp
  · intro hnot
    have hfilter : self.observers.filter (fun x => x != o) = self.observers := by
      apply List.filter_eq_self.2
      intro a ha
      have : a ≠ o := fun h => hnot (h ▸ ha)
      simpa using this
    rw [hfilter] at h1
    cases self
    cases hr : Observable.removeObserver _ o
    rw [hr] at h1
    simpa using h1
  · rw [h1, List.filter_filter] at h2
    have : (self.removeObserver o).removeObserver o = ⟨(self.removeObserver o).observers⟩ := by
      cases hr : (self.removeObserver o).removeObserver o
      rw [hr] at h2
      rw [h1]
      simpa using h2
    rw [this]

/-- Witness of C18: removing an observer that is not registered, one that is
registered three times, and removing it again. -/
theorem removeObserver_filter_witness :
    some 5 ∉ (Observable.mk [some 1, some 2]).observers ∧
    (Observable.mk [some 1, some 2]).removeObserver (some 5) = Observable.mk [some 1, some 2] ∧
    ((Observable.mk [some 1, some 2, some 1, none, some 3, some 1]).removeObserver
      (some 1)).observers = [some 2, none, some 3] :=
  ⟨by decide,
    (removeObserver_filter (Observable.mk [some 1, some 2]) (some 5)).2.2.1 (by decide),
    by decide⟩

/-! ## Broadcast -/

theorem forEachObserver_calls (heap : ObserverHeap) (method : Method) (m : String) :
    ∀ (obs : List ObserverPtr) (s : State), (∀ p ∈ obs.filterMap id, p < heap.length) →
      ∃ s2, forEachObserver heap method m obs s = some s2 ∧
        s2.calls = s.calls ++ (obs.filterMap id).map (fun p => ⟨p, method, m⟩) := by
  intro obs
  induction obs with
  | nil => intro s _; exact ⟨s, rfl, by simp⟩
  | cons x rest ih =>
    intro s hvalid
    have hrest : ∀ p ∈ rest.filterMap id, p < heap.length := by
      intro p hp
      apply hvalid p
      cases x <;> simp [List.filterMap_cons, hp]
    cases x with
    | none =>
      obtain ⟨s2, hrun, hcalls⟩ := ih s hrest
      exact ⟨s2, by rw [forEachObserver, hrun], by simpa using hcalls⟩
    | some p =>
      have hp : p < heap.length := hvalid p (by simp [List.filterMap_cons])
      have hget : heap[p]? = some heap[p] := List.getElem?_eq_getElem hp
      obtain ⟨s2, hrun, hcalls⟩ :=
        ih ⟨virtualCall heap[p] method m s.world, s.calls ++ [⟨p, method, m⟩]⟩ hrest
      refine ⟨s2, by rw [forEachObserver, hget]; exact hrun, ?_⟩
      rw [hcalls]
      simp

/-- C19: when every registered pointer that is not null addresses an observer,
`warning(m)` calls `onWarning(m)` once for each registered entry that is not
null, in the order of registration, and makes no other call; `error(m)` and
`fatalError(m)` do the same with `onError` and `onFatalError`. With the three
observers of `main` registered, `warning(m)` appends the line
"Warning: " ++ m ++ newline to the console and changes nothing else, no file
in particular. -/
theorem broadcast_selective_ordered (self : Observable) (heap : ObserverHeap) (m : String)
    (s : State) (hvalid : ∀ p ∈ self.observers.filterMap id, p < heap.length) :
    (∃ s2, self.warning heap m s = some s2 ∧
      s2.calls = s.calls ++ (self.observers.filterMap id).map (fun p => ⟨p, .onWarning, m⟩)) ∧
    (∃ s2, self.error heap m s = some s2 ∧
      s2.calls = s.calls ++ (self.observers.filterMap id).map (fun p => ⟨p, .onError, m⟩)) ∧
    (∃ s2, self.fatalError heap m s = some s2 ∧
      s2.calls = s.calls ++
        (self.observers.filterMap id).map (fun p => ⟨p, .onFatalError, m⟩)) ∧
    logger.warning mainObservers m s =
      some ⟨⟨s.world.cout ++ ("Warning: " ++ m ++ "\n"), s.world.cerr, s.world.files,
          s.world.openable, s.world.writable⟩,
        s.calls ++ [⟨0, .onWarning, m⟩, ⟨1, .onWarning, m⟩, ⟨2, .onWarning, m⟩]⟩ := by
  refine ⟨forEachObserver_calls heap .onWarning m _ s hvalid,
    forEachObserver_calls heap .onError m _ s hvalid,
    forEachObserver_calls heap .onFatalError m _ s hvalid, ?_⟩
  simp [logger, Observable.addObserver, Observable.warning, forEachObserver, mainObservers,
    virtualCall, WarningObserver.onWarning, Observer.onWarning,
    ChainOfResponsibility.World.writeCout, String.append_assoc]

/-- Witness of C19: the `logger` of `main` with its three observers. -/
theorem broadcast_selective_ordered_witness :
    (∀ p ∈ logger.observers.filterMap id, p < mainObservers.length) ∧
    ((∃ s2, logger.warning mainObservers "m" ⟨ChainOfResponsibility.freshWorld, []⟩ = some s2 ∧
      s2.calls = [] ++ (logger.observers.filterMap id).map (fun p => ⟨p, .onWarning, "m"⟩)) ∧
    (∃ s2, logger.error mainObservers "m" ⟨ChainOfResponsibility.freshWorld, []⟩ = some s2 ∧
      s2.calls = [] ++ (logger.observers.filterMap id).map (fun p => ⟨p, .onError, "m"⟩)) ∧
    (∃ s2, logger.fatalError mainObservers "m" ⟨ChainOfResponsibility.freshWorld, []⟩
        = some s2 ∧
      s2.calls = [] ++
        (logger.observers.filterMap id).map (fun p => ⟨p, .onFatalError, "m"⟩)) ∧
    logger.warning mainObservers "m" ⟨ChainOfResponsibility.freshWorld, []⟩ =
      some ⟨⟨ChainOfResponsibility.freshWorld.cout ++ ("Warning: " ++ "m" ++ "\n"),
          ChainOfResponsibility.freshWorld.cerr, ChainOfResponsibility.freshWorld.files,
          ChainOfResponsibility.freshWorld.openable,
          ChainOfResponsibility.freshWorld.writable⟩,
        [] ++ [⟨0, .onWarning, "m"⟩, ⟨1, .onWarning, "m"⟩, ⟨2, .onWarning, "m"⟩]⟩) :=
  ⟨by decide,
    broadcast_selective_ordered logger mainObservers "m" ⟨ChainOfResponsibility.freshWorld, []⟩
      (by decide)⟩

end ObserverPattern
